import Mathlib

/-!
Shallow embedding of the Smart-LeadMailer-Pro job-progression core.

The document store (Firestore) is modelled as an in-memory `Store` holding the
three collections (`jobs`, `prospects`, `unsubs`); the `jobs` list is kept in
`createdAt`-descending order, matching the `orderBy('createdAt','desc')` used
by `getAllJobs`.  External providers (Google Places, SendGrid) are modelled as
oracles passed to the handlers.  Timestamps are modelled as an abstract `Nat`
clock value `now` carried by the oracle.  JavaScript numbers are modelled as
`Option ℚ` (`none` standing for `NaN`).
-/

namespace LeadMailer

/-- `JobStatus` from `src/lib/types.ts`. -/
inductive JobStatus where
  | draft | prospecting | discovering | sending | completed | failed
deriving DecidableEq, Repr

/-- `ProspectStatus` from `src/lib/types.ts`. -/
inductive ProspectStatus where
  | found | no_website | no_email | email_found | sent | bounced | unsubscribed
deriving DecidableEq, Repr

/-- The six stats counters of a `Job` (`src/lib/types.ts`). -/
structure Stats where
  found : Nat
  withWebsite : Nat
  withEmail : Nat
  sent : Nat
  bounced : Nat
  unsubscribed : Nat
deriving DecidableEq, Repr

/-- The all-zero stats a new job is created with (`POST /api/jobs`). -/
def zeroStats : Stats := ⟨0, 0, 0, 0, 0, 0⟩

/-- A campaign job (`Job` in `src/lib/types.ts`).  `radiusKm` and
`maxBusinesses` are integers after sanitization. -/
structure Job where
  id : String
  status : JobStatus
  niche : String
  targetZip : String
  targetCountry : String
  radiusKm : ℤ
  maxBusinesses : ℤ
  stats : Stats
deriving DecidableEq, Repr

/-- A discovered business (`Prospect` in `src/lib/types.ts`).  Optional JS
string fields are `Option String`; absent timestamps are `none`. -/
structure Prospect where
  id : String
  jobId : String
  status : ProspectStatus
  name : String
  address : String
  website : Option String
  phone : Option String := none
  placeId : String := ""
  discoveredEmail : Option String := none
  emailSource : String := "inferred"
  sendGridMessageId : Option String := none
  sentAt : Option Nat := none
  bouncedAt : Option Nat := none
  bounceReason : Option String := none
  unsubscribedAt : Option Nat := none
deriving DecidableEq, Repr

/-- A suppression-ledger record (`Unsubscribe` in `src/lib/types.ts`). -/
structure Unsubscribe where
  email : String
  domain : String
  jobId : Option String := none
deriving DecidableEq, Repr

/-- The document store: the three Firestore collections.  `jobs` is ordered by
creation time descending (the order `getAllJobs` reads them in). -/
structure Store where
  jobs : List Job
  prospects : List Prospect
  unsubs : List Unsubscribe
deriving DecidableEq, Repr

/-- `.toLowerCase()` modelled character-wise (the repository's data is
ASCII). -/
def jsToLower (s : String) : String := String.mk (s.data.map Char.toLower)

/-- `.toUpperCase()` modelled character-wise. -/
def jsToUpper (s : String) : String := String.mk (s.data.map Char.toUpper)

/-- Worker for `splitOnChar`. -/
def splitOnCharAux (c : Char) : List Char → List Char → List String
  | [], acc => [String.mk acc.reverse]
  | a :: rest, acc =>
    if a = c then String.mk acc.reverse :: splitOnCharAux c rest []
    else splitOnCharAux c rest (a :: acc)

/-- `String.prototype.split(sep)` for a one-character separator (the source
only ever splits on `'@'` and `':'`). -/
def splitOnChar (c : Char) (s : String) : List String := splitOnCharAux c s.data []

/-- `String.prototype.trim()`: strip whitespace from both ends. -/
def jsTrim (s : String) : String :=
  String.mk (((s.data.dropWhile Char.isWhitespace).reverse.dropWhile
    Char.isWhitespace).reverse)

/-- `email.split('@')[1].toLowerCase()` from `isUnsubscribed`/`addUnsubscribe`
(`src/lib/firebase/firestore.ts`).  The source throws a `TypeError` when the
argument has no `@`; every caller passes a well-formed address, and that case
is mapped to `""` here. -/
def domainOfEmail (email : String) : String :=
  match splitOnChar (Char.ofNat 64) email with
  | _ :: d :: _ => jsToLower d
  | _ => ""

/-- `isUnsubscribed` (`src/lib/firebase/firestore.ts`): true iff some ledger
record matches the lowercased email exactly or matches its domain. -/
def isUnsubscribed (s : Store) (email : String) : Bool :=
  s.unsubs.any (fun u => u.email == jsToLower email) ||
    s.unsubs.any (fun u => u.domain == domainOfEmail email)

/-- The record `addUnsubscribe` writes: lowercased email plus the domain
derived from the email (`src/lib/firebase/firestore.ts`). -/
def mkUnsubscribe (email : String) (jobId : Option String) : Unsubscribe :=
  ⟨jsToLower email, domainOfEmail email, jobId⟩

/-- `addUnsubscribe` (`src/lib/firebase/firestore.ts`): appends a ledger
record for the email and its derived domain. -/
def addUnsubscribe (s : Store) (email : String) (jobId : Option String) : Store :=
  { s with unsubs := s.unsubs ++ [mkUnsubscribe email jobId] }

/-- Characters that terminate the host part of a URL in this model: path,
query, fragment and port delimiters. -/
def hostDelim (c : Char) : Bool :=
  c == '/' || c == '?' || c == '#' || c == ':'

/-- `extractDomain` from the email-discovery service: prepend `https://` when
the string does not start with `http`, parse out `URL.hostname`, lowercase it
and strip one leading `www.`; parse failures give `none`.  `new URL` is
modelled for scheme-plus-host URLs: the host runs to the first delimiter, and
an empty host, a whitespace character or a credentials `@` in the host
position make the parse fail (the source throws there). -/
def extractDomain (url : String) : Option String :=
  if url = "" then none
  else
    let withProtocol := if "http".data.isPrefixOf url.data then url else "https://" ++ url
    let rest :=
      if "http://".data.isPrefixOf withProtocol.data then
        some (withProtocol.data.drop 7)
      else if "https://".data.isPrefixOf withProtocol.data then
        some (withProtocol.data.drop 8)
      else none
    match rest with
    | none => none
    | some r =>
      let host := r.takeWhile (fun c => !hostDelim c)
      if host.isEmpty || host.any (fun c => c.isWhitespace || c == Char.ofNat 64) then none
      else
        let h := (String.mk host).data.map Char.toLower
        some (String.mk (if "www.".data.isPrefixOf h then h.drop 4 else h))

/-- The fixed pattern prefixes of `EMAIL_PATTERNS` (email-discovery service),
in their source order. -/
def EMAIL_PREFIXES : List String :=
  ["info", "contact", "hello", "admin", "support", "business"]

/-- `generateInferredEmails`: each pattern applied to the domain. -/
def generateInferredEmails (domain : String) : List String :=
  EMAIL_PREFIXES.map (fun p => p ++ "@" ++ domain)

/-- `discoverEmailForProspect` (email-discovery service): no / empty website
gives `no_website`; an unparsable domain gives `no_email`; otherwise the first
candidate the ledger does not suppress is returned with `email_found`, and if
every candidate is suppressed the result is `no_email`. -/
def discoverEmailForProspect (s : Store) (p : Prospect) :
    Option String × ProspectStatus :=
  if p.website.getD "" = "" then (none, ProspectStatus.no_website)
  else
    match extractDomain (p.website.getD "") with
    | none => (none, ProspectStatus.no_email)
    | some domain =>
      match (generateInferredEmails domain).find? (fun e => !isUnsubscribed s e) with
      | some e => (some e, ProspectStatus.email_found)
      | none => (none, ProspectStatus.no_email)

/-- `Math.round` of JavaScript on a (non-NaN) number: `⌊x + 0.5⌋`. -/
def jsRound (q : ℚ) : ℤ := ⌊q + 1 / 2⌋

/-- `sanitizeRadius` (`src/lib/utils/sanitize.ts`): `NaN` or below 1 gives the
default 5, above 50 is capped to 50, otherwise rounded.  `none` is `NaN`. -/
def sanitizeRadius (radiusKm : Option ℚ) : ℤ :=
  match radiusKm with
  | none => 5
  | some q => if q < 1 then 5 else if q > 50 then 50 else jsRound q

/-- `sanitizeMaxBusinesses` (`src/lib/utils/sanitize.ts`): `NaN` or below 1
gives the default 10, above 1000 is capped to 1000, otherwise rounded. -/
def sanitizeMaxBusinesses (maxB : Option ℚ) : ℤ :=
  match maxB with
  | none => 10
  | some q => if q < 1 then 10 else if q > 1000 then 1000 else jsRound q

instance {e a : Type} [DecidableEq e] [DecidableEq a] : DecidableEq (Except e a) :=
  fun x y =>
    match x, y with
    | Except.ok v, Except.ok w =>
      if h : v = w then isTrue (by rw [h]) else isFalse (by simp [h])
    | Except.error v, Except.error w =>
      if h : v = w then isTrue (by rw [h]) else isFalse (by simp [h])
    | Except.ok _, Except.error _ => isFalse (by simp)
    | Except.error _, Except.ok _ => isFalse (by simp)

/-- `getJob` lookup: first job record with the given id (Firestore doc ids are
unique; theorems that need this take a `Nodup` hypothesis). -/
def findJob (s : Store) (jobId : String) : Option Job :=
  s.jobs.find? (fun j => j.id == jobId)

/-- Prospect lookup by document id. -/
def findProspect (s : Store) (pid : String) : Option Prospect :=
  s.prospects.find? (fun p => p.id == pid)

/-- `jobsColl().doc(jobId).update(...)`: apply a field update to the job
document with the given id. -/
def updateJobById (s : Store) (jobId : String) (f : Job → Job) : Store :=
  { s with jobs := s.jobs.map (fun j => if j.id == jobId then f j else j) }

/-- `prospectsColl().doc(pid).update(...)`: apply a field update to the
prospect document with the given id. -/
def updateProspectById (s : Store) (pid : String) (f : Prospect → Prospect) : Store :=
  { s with prospects := s.prospects.map (fun p => if p.id == pid then f p else p) }

/-- `updateJobStatus` (`src/lib/firebase/firestore.ts`) without the optional
stats merge (the engine never passes stats): sets the status of the job
document with the given id. -/
def updateJobStatus (s : Store) (jobId : String) (status : JobStatus) : Store :=
  updateJobById s jobId (fun j => { j with status := status })

/-- The six stat-counter field names of `incrementJobStat`. -/
inductive StatField where
  | found | withWebsite | withEmail | sent | bounced | unsubscribed
deriving DecidableEq, Repr

/-- Atomic increment of one named counter (`FieldValue.increment`). -/
def Stats.incr (st : Stats) (f : StatField) (amount : Nat) : Stats :=
  match f with
  | StatField.found => { st with found := st.found + amount }
  | StatField.withWebsite => { st with withWebsite := st.withWebsite + amount }
  | StatField.withEmail => { st with withEmail := st.withEmail + amount }
  | StatField.sent => { st with sent := st.sent + amount }
  | StatField.bounced => { st with bounced := st.bounced + amount }
  | StatField.unsubscribed => { st with unsubscribed := st.unsubscribed + amount }

/-- `incrementJobStat` (`src/lib/firebase/firestore.ts`). -/
def incrementJobStat (s : Store) (jobId : String) (f : StatField) (amount : Nat) : Store :=
  updateJobById s jobId (fun j => { j with stats := j.stats.incr f amount })

/-- `getProspectsForJob` (`src/lib/firebase/firestore.ts`): the returned list
is filtered by job id, then by the optional status, then limited; the returned
`total` comes from a `count()` over the job-id filter ONLY — it ignores the
status filter. -/
def getProspectsForJob (s : Store) (jobId : String) (status : Option ProspectStatus)
    (limit : Option Nat) : List Prospect × Nat :=
  let base := s.prospects.filter (fun p => p.jobId == jobId)
  let filtered :=
    match status with
    | some st => base.filter (fun p => p.status == st)
    | none => base
  let limited :=
    match limit with
    | some n => filtered.take n
    | none => filtered
  (limited, base.length)

/-- `updateProspectStatus` (`src/lib/firebase/firestore.ts`): sets the status;
a truthy (present, non-empty) `discoveredEmail` also sets the email and the
`inferred` source. -/
def updateProspectStatus (s : Store) (pid : String) (status : ProspectStatus)
    (discoveredEmail : Option String) : Store :=
  updateProspectById s pid (fun p =>
    let p1 := { p with status := status }
    match discoveredEmail with
    | some e =>
      if e = "" then p1
      else { p1 with discoveredEmail := some e, emailSource := "inferred" }
    | none => p1)

/-- `getProspectsForSending`: prospects of the job in `email_found` status,
limited to the batch size. -/
def getProspectsForSending (s : Store) (jobId : String) (batchSize : Nat) : List Prospect :=
  (s.prospects.filter (fun p =>
    p.jobId == jobId && p.status == ProspectStatus.email_found)).take batchSize

/-- One business row returned by the Places service (`PlacesBusiness` in
`src/lib/services/places.ts`; the absent-website case is `none`). -/
structure PlacesBusiness where
  name : String
  address : String
  website : Option String
  phone : Option String := none
  rating : Option ℚ := none
  reviewCount : Option Nat := none
  placeId : String
deriving DecidableEq, Repr

/-- The prospect row `batchCreateProspects` writes for one business: status
`found`, fields copied from the Places result. -/
def mkProspect (jobId : String) (pid : String) (b : PlacesBusiness) : Prospect :=
  { id := pid, jobId := jobId, status := ProspectStatus.found, name := b.name,
    address := b.address, website := b.website, phone := b.phone, placeId := b.placeId }

/-- `batchCreateProspects` (`src/lib/firebase/firestore.ts`): one atomic batch
write appending a `found`-status prospect per business.  Firestore's
auto-generated doc ids are modelled as fresh ids derived from the job id and
the current collection size. -/
def batchCreateProspects (s : Store) (jobId : String) (bs : List PlacesBusiness) : Store :=
  let newPs := bs.enum.map (fun ib =>
    mkProspect jobId (jobId ++ "-p" ++ toString (s.prospects.length + ib.1)) ib.2)
  { s with prospects := s.prospects ++ newPs }

/-- The error object a failed SendGrid send rejects with
(`error.response.statusCode`, `error.code`, `error.message`). -/
structure SgError where
  statusCode : Option Nat := none
  code : Option Nat := none
  message : Option String := none
deriving DecidableEq, Repr

/-- Outcome of one provider send call, per prospect id. -/
inductive SendOutcome where
  | ok (messageId : String)
  | err (e : SgError)
deriving DecidableEq, Repr

/-- The value `sendEmailToProspect` resolves with. -/
structure SendResult where
  success : Bool
  messageId : Option String := none
  error : Option String := none
deriving DecidableEq, Repr

/-- External-effect oracle for one scheduler tick: the provider responses and
the injected failure points, all keyed by job or prospect id, plus the clock.

* `send` — SendGrid outcome for a prospect id;
* `placesResult` — `getProspectsFromPlaces` for a job id, `none` when the
  geocoding/places call throws;
* `discoveryThrows` / `sendingThrows` — a store call inside that handler's
  `try` block throws;
* `jobThrows` — a throw outside the handler `try` blocks, reaching the
  per-job `catch` of the cron `GET`;
* `fetchFails` — `getAllJobs` itself throws (the per-tick fatal case). -/
structure Oracle where
  now : Nat := 0
  send : String → SendOutcome := fun _ => SendOutcome.ok "m"
  placesResult : String → Option (List PlacesBusiness) := fun _ => some []
  discoveryThrows : String → Bool := fun _ => false
  sendingThrows : String → Bool := fun _ => false
  jobThrows : String → Bool := fun _ => false
  fetchFails : Bool := false

/-- `error.message?.substring(0, 500)` — truncation to at most 500 characters. -/
def truncate500 (m : String) : String := String.mk (m.data.take 500)

/-- `error.message || 'Unknown error'`. -/
def errMessage (m : Option String) : String :=
  match m with
  | some t => if t = "" then "Unknown error" else t
  | none => "Unknown error"

/-- `sendEmailToProspect` (`src/lib/services/sendgrid.ts`).  Returns the
updated store, the result value, and the list of addresses actually handed to
the provider (used to state which recipients the Outreach Sender was invoked
for).  The dead `!prospect.discoveredEmail` guard in the source misspells
`params.prospect`; it is modelled as the intended field test.  On success the
prospect becomes `sent` with message id and timestamp; on failure the prospect
is marked `bounced` (with truncated reason and timestamp) exactly when
`error.response.statusCode === 400` or `error.code === 400`, and is left
untouched otherwise.  No suppression-ledger query occurs anywhere in this
path. -/
def sendEmailToProspect (o : Oracle) (s : Store) (p : Prospect) :
    Store × SendResult × List String :=
  if p.discoveredEmail.getD "" = "" then
    (s, { success := false, error := some "No email address available for this prospect" }, [])
  else
    let e := p.discoveredEmail.getD ""
    match o.send p.id with
    | SendOutcome.ok msgId =>
      let s1 := updateProspectStatus s p.id ProspectStatus.sent (some e)
      let s2 := updateProspectById s1 p.id (fun q =>
        { q with sendGridMessageId := some msgId, sentAt := some o.now })
      (s2, { success := true, messageId := some msgId }, [e])
    | SendOutcome.err er =>
      if er.statusCode == some 400 || er.code == some 400 then
        let s1 := updateProspectStatus s p.id ProspectStatus.bounced (some e)
        let s2 := updateProspectById s1 p.id (fun q =>
          { q with bouncedAt := some o.now, bounceReason := er.message.map truncate500 })
        (s2, { success := false, error := some (errMessage er.message) }, [e])
      else
        (s, { success := false, error := some (errMessage er.message) }, [e])

/-- Aggregate result of `batchSendEmails`. -/
structure BatchSendResult where
  sent : Nat
  failed : Nat
  errors : List String
deriving DecidableEq, Repr

/-- `batchSendEmails` (`src/lib/services/sendgrid.ts`): strictly sequential
loop over the batch, counting successes and failures and collecting per-name
error messages in order.  The fixed 100 ms inter-message delay is real time
and has no observable effect in this state model. -/
def batchSendEmails (o : Oracle) (s : Store) : List Prospect →
    Store × BatchSendResult × List String
  | [] => (s, ⟨0, 0, []⟩, [])
  | p :: rest =>
    let (s1, r, inv1) := sendEmailToProspect o s p
    let (s2, res, inv2) := batchSendEmails o s1 rest
    if r.success then
      (s2, { res with sent := res.sent + 1 }, inv1 ++ inv2)
    else
      (s2,
       { res with failed := res.failed + 1,
                  errors := (p.name ++ ": " ++ r.error.getD "") :: res.errors },
       inv1 ++ inv2)

/-- Places provider oracle: the sequence of result pages it would serve (page
`i+1` is reachable iff a continuation token accompanied page `i`, i.e. iff it
exists in the list; a page is served truncated to the requested `pageSize`),
plus the failure switches for the geocoding call, the first search request and
the continuation request. -/
structure PlacesOracle where
  geocodeOk : Bool := true
  firstPageOk : Bool := true
  nextPageOk : Bool := true
  pages : List (List PlacesBusiness)

/-- `searchBusinesses` (`src/lib/services/places.ts`): geocode, fetch the
first page with `pageSize = min(max, 20)`, and — when a continuation token is
present and fewer than `max` results were accumulated — fetch ONE continuation
page via `fetchNextPage` with `pageSize = min(remaining, 20)` (a continuation
failure yields `[]`); finally `slice(0, max)`.  `fetchNextPage` never follows
further tokens, so no third page is ever requested. -/
def searchBusinesses (po : PlacesOracle) (maxBusinesses : Nat) :
    Except String (List PlacesBusiness) :=
  if !po.geocodeOk then Except.error "Geocoding failed"
  else if !po.firstPageOk then Except.error "Places API error"
  else
    match po.pages with
    | [] => Except.ok []
    | p0 :: rest =>
      let businesses := p0.take (min maxBusinesses 20)
      if rest.isEmpty = false ∧ businesses.length < maxBusinesses then
        let remaining := maxBusinesses - businesses.length
        let nextPage :=
          if po.nextPageOk then (rest.headD []).take (min remaining 20) else []
        Except.ok ((businesses ++ nextPage).take maxBusinesses)
      else Except.ok (businesses.take maxBusinesses)

/-- Modelled from the spec words of the pagination claim: accumulate page
after page (each served at up to the 20-per-request cap) while a continuation
token remains and the maximum is not yet reached. -/
def specAccumulate : List (List PlacesBusiness) → Nat → List PlacesBusiness
  | [], _ => []
  | p :: rest, maxB =>
    let acc := p.take 20
    if maxB ≤ acc.length then acc
    else acc ++ specAccumulate rest (maxB - acc.length)

/-- Modelled from the spec words of the pagination claim: the accumulated
sequence truncated to exactly `max-count`. -/
def specSearchBusinesses (po : PlacesOracle) (maxB : Nat) : List PlacesBusiness :=
  (specAccumulate po.pages maxB).take maxB

/-- `EMAIL_DISCOVERY_BATCH_SIZE` from the cron route. -/
def EMAIL_DISCOVERY_BATCH_SIZE : Nat := 50

/-- `SENDING_BATCH_SIZE` from the cron route. -/
def SENDING_BATCH_SIZE : Nat := 10

/-- `handleProspecting` (cron route): a draft job is first moved to
`prospecting`; then the Places results are persisted as `found` prospects,
`found` and `withWebsite` are incremented by the batch's actual counts, and
the job advances to `discovering` — or is marked `failed` when the Places call
throws.  The second component lists the job-status writes performed, in
order. -/
def handleProspecting (o : Oracle) (s : Store) (j : Job) : Store × List JobStatus :=
  let s0 :=
    if j.status = JobStatus.draft then updateJobStatus s j.id JobStatus.prospecting else s
  let t0 := if j.status = JobStatus.draft then [JobStatus.prospecting] else []
  match o.placesResult j.id with
  | none => (updateJobStatus s0 j.id JobStatus.failed, t0 ++ [JobStatus.failed])
  | some bs =>
    let s1 := batchCreateProspects s0 j.id bs
    let s2 := incrementJobStat s1 j.id StatField.found bs.length
    let s3 := incrementJobStat s2 j.id StatField.withWebsite
      (bs.filter (fun b => b.website.getD "" != "")).length
    (updateJobStatus s3 j.id JobStatus.discovering, t0 ++ [JobStatus.discovering])

/-- The update loop of `handleEmailDiscovery`: persist each prospect's
discovery result (status and optional email) in order. -/
def applyDiscoveryResults (s : Store) :
    List (String × Option String × ProspectStatus) → Store
  | [] => s
  | r :: rest => applyDiscoveryResults (updateProspectStatus s r.1 r.2.2 r.2.1) rest

/-- `handleEmailDiscovery` (cron route), success path: fetch up to 50 `found`
prospects; none ⇒ advance to `sending`; otherwise discover an email per
prospect (all discoveries read the pre-update store, as the source's
`Promise.all` does), persist each result, increment `withEmail` by the count
of discovered addresses, and — when the fetched batch was smaller than 50 —
re-check `getProspectsForJob(job, {status: found}).total` and advance to
`sending` if it is zero.  That `total` counts ALL prospects of the job,
ignoring the status filter, exactly as the source's `count()` query does. -/
def handleEmailDiscovery (s : Store) (j : Job) : Store × List JobStatus :=
  let fetched :=
    (getProspectsForJob s j.id (some ProspectStatus.found) (some EMAIL_DISCOVERY_BATCH_SIZE)).1
  if fetched.isEmpty then
    (updateJobStatus s j.id JobStatus.sending, [JobStatus.sending])
  else
    let results := fetched.map (fun p => (p.id, discoverEmailForProspect s p))
    let s1 := applyDiscoveryResults s results
    let s2 := incrementJobStat s1 j.id StatField.withEmail
      (results.filter (fun r => r.2.1.getD "" != "")).length
    if fetched.length < EMAIL_DISCOVERY_BATCH_SIZE then
      if (getProspectsForJob s2 j.id (some ProspectStatus.found) none).2 = 0 then
        (updateJobStatus s2 j.id JobStatus.sending, [JobStatus.sending])
      else (s2, [])
    else (s2, [])

/-- `handleSending` (cron route), success path: fetch up to 10 `email_found`
prospects; none ⇒ the job is `completed`; otherwise run the sequential batch
send and increment `sent`/`bounced` by the reported counts, leaving the job in
`sending`. -/
def handleSending (o : Oracle) (s : Store) (j : Job) : Store × List JobStatus :=
  let batch := getProspectsForSending s j.id SENDING_BATCH_SIZE
  if batch.isEmpty then
    (updateJobStatus s j.id JobStatus.completed, [JobStatus.completed])
  else
    let (s1, res, _) := batchSendEmails o s batch
    let s2 := incrementJobStat s1 j.id StatField.sent res.sent
    (incrementJobStat s2 j.id StatField.bounced res.failed, [])

/-- `processJob` (cron route): dispatch on the job's snapshot status; the
`discovering` / `sending` handlers convert an injected store failure inside
their `try` block into a `failed` write; `completed` and `failed` have no
case and are untouched. -/
def processJob (o : Oracle) (s : Store) (j : Job) : Store × List JobStatus :=
  match j.status with
  | JobStatus.draft => handleProspecting o s j
  | JobStatus.prospecting => handleProspecting o s j
  | JobStatus.discovering =>
    if o.discoveryThrows j.id then
      (updateJobStatus s j.id JobStatus.failed, [JobStatus.failed])
    else handleEmailDiscovery s j
  | JobStatus.sending =>
    if o.sendingThrows j.id then
      (updateJobStatus s j.id JobStatus.failed, [JobStatus.failed])
    else handleSending o s j
  | JobStatus.completed => (s, [])
  | JobStatus.failed => (s, [])

/-- One job step of the cron loop with its per-job `catch`: a throw escaping
`processJob` is converted into a `failed` write for that job only, and the
loop continues. -/
def processJobCaught (o : Oracle) (s : Store) (j : Job) : Store × List JobStatus :=
  if o.jobThrows j.id then (updateJobStatus s j.id JobStatus.failed, [JobStatus.failed])
  else processJob o s j

/-- `getAllJobs` (`src/lib/firebase/firestore.ts`) at its default `limit = 50`:
the 50 most recently created jobs. -/
def getAllJobs (s : Store) : List Job := s.jobs.take 50

/-- The active-status filter of the cron `GET`. -/
def isActiveStatus (st : JobStatus) : Bool :=
  st == JobStatus.draft || st == JobStatus.prospecting ||
    st == JobStatus.discovering || st == JobStatus.sending

/-- The cron `GET` (one scheduler tick): fetch the job list (the one fatal
failure point), filter to non-terminal statuses, process each job with the
per-job catch, and report success with the count of jobs attempted. -/
def cronTick (o : Oracle) (s : Store) : Except String (Nat × Store) :=
  if o.fetchFails then Except.error "Cron processing failed"
  else
    let activeJobs := (getAllJobs s).filter (fun j => isActiveStatus j.status)
    let final := activeJobs.foldl (fun st j => (processJobCaught o st j).1) s
    Except.ok (activeJobs.length, final)

/-- Response of the manual send trigger (`POST /api/send`). -/
inductive ManualSendResult where
  | badRequest (msg : String)
  | notFound
  | wrongStatus (st : JobStatus)
  | ok (sent failed : Nat)
deriving DecidableEq, Repr

/-- The manual send trigger (`POST /api/send` in `src/app/api/prospects/route.ts`):
only a job currently in `sending` status gets one out-of-band sending batch
(10 prospects) through `batchSendEmails`; the handler performs no job-record
write — in particular no `incrementJobStat` and no `updateJobStatus`. -/
def manualSend (o : Oracle) (s : Store) (jobId : String) : Store × ManualSendResult :=
  if jobId = "" then
    (s, ManualSendResult.badRequest "Missing or invalid jobId in request body")
  else
    match findJob s jobId with
    | none => (s, ManualSendResult.notFound)
    | some job =>
      if job.status != JobStatus.sending then (s, ManualSendResult.wrongStatus job.status)
      else
        let batch := getProspectsForSending s jobId 10
        if batch.isEmpty then (s, ManualSendResult.ok 0 0)
        else
          let (s1, res, _) := batchSendEmails o s batch
          (s1, ManualSendResult.ok res.sent res.failed)

/-- Response of the unsubscribe endpoint. -/
inductive UnsubResponse where
  | badRequest (msg : String)
  | confirmed (email : String)
deriving DecidableEq, Repr

/-- The unsubscribe `GET` (`src/app/api/unsubscribe`), taken from the decoded
token text onward (`decoded.split(':')` gives prospect id and email): a
missing prospect still fails open into the ledger; an existing prospect whose
stored `discoveredEmail` differs from the token's email is rejected with no
write at all; on a match the ledger record is added and the prospect is marked
`unsubscribed` with a timestamp. -/
def unsubscribeHandler (s : Store) (now : Nat) (decoded : String) : Store × UnsubResponse :=
  let parts := splitOnChar (Char.ofNat 58) decoded
  let prospectId := parts.getD 0 ""
  let email := parts.getD 1 ""
  if prospectId = "" || email = "" then
    (s, UnsubResponse.badRequest "Invalid unsubscribe link: malformed token")
  else
    match findProspect s prospectId with
    | none => (addUnsubscribe s email none, UnsubResponse.confirmed email)
    | some p =>
      if p.discoveredEmail != some email then
        (s, UnsubResponse.badRequest "Invalid unsubscribe link: email mismatch")
      else
        let s1 := addUnsubscribe s email (some p.jobId)
        let s2 := updateProspectById s1 prospectId (fun q =>
          { q with status := ProspectStatus.unsubscribed, unsubscribedAt := some now })
        (s2, UnsubResponse.confirmed email)

/-- JavaScript truthiness test for a numeric request field (`!radiusKm`):
`NaN` and `0` are falsy. -/
def jsFalsyNum (x : Option ℚ) : Bool :=
  match x with
  | none => true
  | some q => q == 0

/-- `\w` of the sanitizer regexes (ASCII word character). -/
def isWordChar (c : Char) : Bool := c.isAlphanum || c == '_'

/-- `sanitizeNiche` (`src/lib/utils/sanitize.ts`): trim, require 2–50 chars,
strip characters outside `[\w\s-]`, trim again.  The possibly-empty result is
returned (`POST /api/jobs` treats the empty string as invalid). -/
def sanitizeNiche (niche : String) : Option String :=
  if niche = "" then none
  else
    let cleaned := jsTrim niche
    if cleaned.length < 2 || 50 < cleaned.length then none
    else
      some (jsTrim (String.mk (cleaned.data.filter
        (fun c => isWordChar c || c.isWhitespace || c == Char.ofNat 45))))

/-- The ZIP / ZIP+4 regex of `sanitizeLocationInput`. -/
def isZipCode (s : String) : Bool :=
  let d := s.data
  (d.length = 5 && d.all Char.isDigit) ||
    (d.length = 10 && (d.take 5).all Char.isDigit && d.getD 5 ' ' == '-' &&
      (d.drop 6).all Char.isDigit)

/-- `sanitizeLocationInput` (`src/lib/utils/sanitize.ts`): a ZIP passes as is;
otherwise a 2–100 char string is kept with characters outside `[\w\s,.'-]`
stripped; anything else is invalid. -/
def sanitizeLocationInput (input : String) : Option String :=
  if input = "" then none
  else
    let cleaned := jsTrim input
    if isZipCode cleaned then some cleaned
    else if 2 ≤ cleaned.length && cleaned.length ≤ 100 then
      some (jsTrim (String.mk (cleaned.data.filter (fun c =>
        isWordChar c || c.isWhitespace || c == ',' || c == '.' ||
          c == Char.ofNat 39 || c == Char.ofNat 45))))
    else none

/-- `sanitizeCountryCode` (`src/lib/utils/sanitize.ts`): trimmed uppercased
two-letter codes pass; everything else defaults to `US`. -/
def sanitizeCountryCode (country : String) : String :=
  if country = "" then "US"
  else
    let cleaned := jsToUpper (jsTrim country)
    if cleaned.length = 2 && cleaned.data.all (fun c => 'A' ≤ c && c ≤ 'Z') then cleaned
    else "US"

/-- `POST /api/jobs` (`src/app/api/jobs/route.ts`): falsy required fields are
rejected; the sanitized inputs produce a new job in `draft` with all six stats
counters zero.  `jobId` stands for the Firestore-generated document id. -/
def postJob (jobId : String) (niche targetZip country : String)
    (radiusKm maxBusinesses : Option ℚ) : Except String Job :=
  if niche = "" || targetZip = "" || jsFalsyNum radiusKm || jsFalsyNum maxBusinesses then
    Except.error "Missing required fields: niche, targetZip, radiusKm, maxBusinesses"
  else
    match sanitizeNiche niche with
    | none => Except.error "Invalid niche"
    | some n =>
      if n = "" then Except.error "Invalid niche"
      else
        match sanitizeLocationInput targetZip with
        | none => Except.error "Invalid targetZip"
        | some z =>
          if z = "" then Except.error "Invalid targetZip"
          else
            Except.ok
              { id := jobId, status := JobStatus.draft, niche := n, targetZip := z,
                targetCountry := sanitizeCountryCode country,
                radiusKm := sanitizeRadius radiusKm,
                maxBusinesses := sanitizeMaxBusinesses maxBusinesses,
                stats := zeroStats }

/-- Boolean form of the pipeline edge relation of the job state machine:
the four forward edges, plus `failed` from any non-terminal state. -/
def allowedEdgeB (a b : JobStatus) : Bool :=
  (a == JobStatus.draft && b == JobStatus.prospecting) ||
  (a == JobStatus.prospecting && b == JobStatus.discovering) ||
  (a == JobStatus.discovering && b == JobStatus.sending) ||
  (a == JobStatus.sending && b == JobStatus.completed) ||
  (b == JobStatus.failed && a != JobStatus.completed && a != JobStatus.failed)

/-- The pipeline edge relation of the job state machine. -/
def allowedEdge (a b : JobStatus) : Prop := allowedEdgeB a b = true

instance : DecidableRel allowedEdge := fun a b =>
  inferInstanceAs (Decidable (allowedEdgeB a b = true))

/-- Status of the job record with the given id. -/
def jobStatusIn (s : Store) (jid : String) : Option JobStatus :=
  (findJob s jid).map Job.status

/-- Number of the job's prospects currently in `found` status (the quantity
the discovering stage's re-check is meant to measure). -/
def foundCount (s : Store) (jid : String) : Nat :=
  ((getProspectsForJob s jid (some ProspectStatus.found) none).1).length

/-- Absence of every injected failure for one job during a tick. -/
def noJobFailure (o : Oracle) (jid : String) : Prop :=
  o.jobThrows jid = false ∧ o.discoveryThrows jid = false ∧
    o.sendingThrows jid = false ∧ o.placesResult jid ≠ none

/-- Modelled from the claim words of the bounce-classification claim: an HTTP
status in the 400 class (a 4xx client-side status). -/
def isHttp400Class (c : Nat) : Bool := 400 ≤ c && c < 500

/-- An oracle whose every external call succeeds. -/
def baseOracle : Oracle := {}

/-- Fixture: a job record with the given id and status. -/
def cxJob (id : String) (st : JobStatus) : Job :=
  { id := id, status := st, niche := "bakery", targetZip := "10001",
    targetCountry := "US", radiusKm := 5, maxBusinesses := 3, stats := zeroStats }

/-- Fixture: a `found` prospect whose website is `http://foo.com`. -/
def fooProspect : Prospect :=
  { id := "p1", jobId := "j1", status := ProspectStatus.found, name := "Foo",
    address := "", website := some "http://foo.com" }

/-- Fixture: scenario-B store — the ledger holds exactly the record that
unsubscribing `info@foo.com` creates, and nothing for `contact@foo.com`. -/
def fooSuppressedStore : Store :=
  { jobs := [], prospects := [fooProspect],
    unsubs := [mkUnsubscribe "info@foo.com" none] }

/-- Fixture: the prospect after discovery found `info@foo.com`. -/
def fooEmailFoundProspect : Prospect :=
  { fooProspect with
    status := ProspectStatus.email_found,
    discoveredEmail := some "info@foo.com" }

/-- Fixture: a `sending`-status job whose one `email_found` prospect carries
an address that meanwhile entered the suppression ledger. -/
def cxSendStore : Store :=
  { jobs := [cxJob "j1" JobStatus.sending], prospects := [fooEmailFoundProspect],
    unsubs := [mkUnsubscribe "info@foo.com" none] }

/-- Fixture: a `discovering` job with exactly one `found` prospect. -/
def cxDiscoverStore : Store :=
  { jobs := [cxJob "j1" JobStatus.discovering], prospects := [fooProspect], unsubs := [] }

/-- Fixture business for the pagination counterexample. -/
def cxBiz (n : Nat) : PlacesBusiness :=
  { name := toString n, address := "", website := none, placeId := toString n }

/-- Fixture: one full provider page of 20 businesses. -/
def cxPage (k : Nat) : List PlacesBusiness :=
  (List.range 20).map (fun i => cxBiz (20 * k + i))

/-- Fixture: a provider holding three full pages (60 businesses), each page
accompanied by a continuation token to the next. -/
def cxPlaces : PlacesOracle := { pages := [cxPage 0, cxPage 1, cxPage 2] }

/-- Fixture: provider rejects every send with HTTP 403 (a 400-class status). -/
def err403Oracle : Oracle :=
  { send := fun _ => SendOutcome.err { statusCode := some 403, message := some "forbidden" } }

/-- Fixture: provider rejects every send with HTTP 400. -/
def err400Oracle : Oracle :=
  { send := fun _ => SendOutcome.err { statusCode := some 400, message := some "bad request" } }

/-- Fixture: store holding only the `email_found` foo prospect. -/
def cxStoreEF : Store := { jobs := [], prospects := [fooEmailFoundProspect], unsubs := [] }

/-- Fixture: 51 jobs — the 50 most recent are `completed`, and one older job
is still in `draft`. -/
def cxManyJobsStore : Store :=
  { jobs := (List.range 50).map (fun n => cxJob (String.append "c" (toString n)) JobStatus.completed)
      ++ [cxJob "d51" JobStatus.draft],
    prospects := [], unsubs := [] }

/-- Fixture: every job's processing throws at the tick level. -/
def wThrowOracle : Oracle := { jobThrows := fun _ => true }

/-- Fixture: a single draft job, for tick witnesses. -/
def wDraftStore : Store := { jobs := [cxJob "jw" JobStatus.draft], prospects := [], unsubs := [] }

/-- Fixture: a `sending` job with one sendable prospect, for the manual-send
witness. -/
def wSendStore : Store :=
  { jobs := [cxJob "j1" JobStatus.sending], prospects := [fooEmailFoundProspect], unsubs := [] }

/-- The rational 1/2 given by its reduced fraction (kernel-computable form of
the JS number 0.5). -/
def halfQ : ℚ := ⟨1, 2, by norm_num, by norm_num⟩

/-- Fixture: the job `POST /api/jobs` creates from a valid request whose
radius (100) and max-businesses (5000) both exceed their maxima. -/
def wCreatedJob : Job :=
  match postJob "job1" "bakery" "10001" "US" (some 100) (some 5000) with
  | Except.ok j => j
  | Except.error _ => cxJob "x" JobStatus.failed

/-- Fixture: a prospect/store pair for the unsubscribe witness. -/
def wUnsubStore : Store := { jobs := [], prospects := [fooEmailFoundProspect], unsubs := [] }

theorem find?_map_updateById {α : Type} (idf : α → String) (l : List α)
    (jid x : String) (f : α → α) (hf : ∀ a, idf (f a) = idf a) :
    (l.map (fun a => if idf a == jid then f a else a)).find? (fun a => idf a == x) =
      if x = jid then (l.find? (fun a => idf a == x)).map f
      else l.find? (fun a => idf a == x) := by
  induction l with
  | nil => by_cases h : x = jid <;> simp [h]
  | cons a t ih =>
    have hga : idf (if idf a == jid then f a else a) = idf a := by
      by_cases h : idf a = jid <;> simp [h, hf]
    by_cases hax : idf a = x
    · by_cases hxj : x = jid
      · subst hxj
        simp [List.find?_cons, hax, hf]
      · have haj : ¬ idf a = jid := by rw [hax]; exact hxj
        simp [List.find?_cons, hax, haj, hxj]
    · have hfa : (idf (if idf a == jid then f a else a) == x) = false := by
        rw [hga]; simpa using hax
      have hax' : (idf a == x) = false := by simpa using hax
      simp only [List.map_cons, List.find?_cons, hfa, hax']
      exact ih

theorem findJob_updateJobById (s : Store) (jid x : String) (f : Job → Job)
    (hf : ∀ j, (f j).id = j.id) :
    findJob (updateJobById s jid f) x =
      if x = jid then (findJob s x).map f else findJob s x := by
  unfold findJob updateJobById
  exact find?_map_updateById Job.id s.jobs jid x f hf

theorem findProspect_updateProspectById (s : Store) (pid x : String)
    (f : Prospect → Prospect) (hf : ∀ p, (f p).id = p.id) :
    findProspect (updateProspectById s pid f) x =
      if x = pid then (findProspect s x).map f else findProspect s x := by
  unfold findProspect updateProspectById
  exact find?_map_updateById Prospect.id s.prospects pid x f hf

theorem findJob_updateJobStatus_self (s : Store) (jid : String) (st : JobStatus) :
    findJob (updateJobStatus s jid st) jid =
      (findJob s jid).map (fun j => { j with status := st }) := by
  simpa using findJob_updateJobById s jid jid (fun j => { j with status := st })
    (fun _ => rfl)

theorem findJob_updateJobStatus_ne (s : Store) (jid x : String) (st : JobStatus)
    (h : x ≠ jid) : findJob (updateJobStatus s jid st) x = findJob s x := by
  simpa [h] using findJob_updateJobById s jid x (fun j => { j with status := st })
    (fun _ => rfl)

theorem findJob_incrementJobStat_self (s : Store) (jid : String) (f : StatField)
    (n : Nat) : findJob (incrementJobStat s jid f n) jid =
      (findJob s jid).map (fun j => { j with stats := j.stats.incr f n }) := by
  simpa using findJob_updateJobById s jid jid
    (fun j => { j with stats := j.stats.incr f n }) (fun _ => rfl)

theorem findJob_incrementJobStat_ne (s : Store) (jid x : String) (f : StatField)
    (n : Nat) (h : x ≠ jid) : findJob (incrementJobStat s jid f n) x = findJob s x := by
  simpa [h] using findJob_updateJobById s jid x
    (fun j => { j with stats := j.stats.incr f n }) (fun _ => rfl)

theorem findJob_eq_of_jobs_eq {A B : Store} (x : String) (h : A.jobs = B.jobs) :
    findJob A x = findJob B x := by
  unfold findJob; rw [h]

theorem findProspect_eq_of_prospects_eq {A B : Store} (x : String)
    (h : A.prospects = B.prospects) : findProspect A x = findProspect B x := by
  unfold findProspect; rw [h]

theorem jobs_updateProspectById (s : Store) (pid : String) (f : Prospect → Prospect) :
    (updateProspectById s pid f).jobs = s.jobs := rfl

theorem jobs_updateProspectStatus (s : Store) (pid : String) (st : ProspectStatus)
    (e : Option String) : (updateProspectStatus s pid st e).jobs = s.jobs := rfl

theorem jobs_batchCreateProspects (s : Store) (jid : String)
    (bs : List PlacesBusiness) : (batchCreateProspects s jid bs).jobs = s.jobs := rfl

theorem jobs_addUnsubscribe (s : Store) (e : String) (jid : Option String) :
    (addUnsubscribe s e jid).jobs = s.jobs := rfl

theorem prospects_addUnsubscribe (s : Store) (e : String) (jid : Option String) :
    (addUnsubscribe s e jid).prospects = s.prospects := rfl

theorem jobs_applyDiscoveryResults :
    ∀ (rs : List (String × Option String × ProspectStatus)) (s : Store),
      (applyDiscoveryResults s rs).jobs = s.jobs
  | [], _ => rfl
  | r :: rest, s => by
    rw [applyDiscoveryResults, jobs_applyDiscoveryResults rest, jobs_updateProspectStatus]

theorem jobs_sendEmailToProspect (o : Oracle) (s : Store) (p : Prospect) :
    ((sendEmailToProspect o s p).1).jobs = s.jobs := by
  unfold sendEmailToProspect
  by_cases h : p.discoveredEmail.getD "" = ""
  · simp [h]
  · simp only [h, if_false]
    cases hs : o.send p.id with
    | ok m => rfl
    | err er =>
      cases hb : (er.statusCode == some 400 || er.code == some 400)
      · simp [hb]
      · simp only [hb, if_true]; rfl

theorem jobs_batchSendEmails (o : Oracle) (ps : List Prospect) :
    ∀ (s : Store), ((batchSendEmails o s ps).1).jobs = s.jobs := by
  induction ps with
  | nil => intro s; rfl
  | cons p rest ih =>
    intro s
    rcases hse : sendEmailToProspect o s p with ⟨s1, r, inv1⟩
    have h1 : s1.jobs = s.jobs := by
      have := jobs_sendEmailToProspect o s p; rw [hse] at this; exact this
    rcases hbr : batchSendEmails o s1 rest with ⟨s2, res, inv2⟩
    have h2 : s2.jobs = s1.jobs := by
      have := ih s1; rw [hbr] at this; exact this
    by_cases hr : r.success = true <;>
      simp [batchSendEmails, hse, hbr, hr, h1, h2]

theorem findJob_if_draft (s : Store) (j : Job) (x : String) (h : x ≠ j.id) :
    findJob (if j.status = JobStatus.draft
      then updateJobStatus s j.id JobStatus.prospecting else s) x = findJob s x := by
  by_cases hd : j.status = JobStatus.draft <;>
    simp [hd, findJob_updateJobStatus_ne s j.id x _ h]

theorem findJob_handleProspecting_ne (o : Oracle) (s : Store) (j : Job) (x : String)
    (h : x ≠ j.id) : findJob (handleProspecting o s j).1 x = findJob s x := by
  simp only [handleProspecting]
  cases hp : o.placesResult j.id with
  | none =>
    rw [findJob_updateJobStatus_ne _ _ _ _ h, findJob_if_draft s j x h]
  | some bs =>
    rw [findJob_updateJobStatus_ne _ _ _ _ h,
      findJob_incrementJobStat_ne _ _ _ _ _ h,
      findJob_incrementJobStat_ne _ _ _ _ _ h,
      findJob_eq_of_jobs_eq x (jobs_batchCreateProspects _ _ _),
      findJob_if_draft s j x h]

theorem findJob_handleEmailDiscovery_ne (s : Store) (j : Job) (x : String)
    (h : x ≠ j.id) : findJob (handleEmailDiscovery s j).1 x = findJob s x := by
  simp only [handleEmailDiscovery]
  split
  · rw [findJob_updateJobStatus_ne _ _ _ _ h]
  · split
    · split
      · rw [findJob_updateJobStatus_ne _ _ _ _ h,
          findJob_incrementJobStat_ne _ _ _ _ _ h,
          findJob_eq_of_jobs_eq x (jobs_applyDiscoveryResults _ _)]
      · rw [findJob_incrementJobStat_ne _ _ _ _ _ h,
          findJob_eq_of_jobs_eq x (jobs_applyDiscoveryResults _ _)]
    · rw [findJob_incrementJobStat_ne _ _ _ _ _ h,
        findJob_eq_of_jobs_eq x (jobs_applyDiscoveryResults _ _)]

theorem findJob_handleSending_ne (o : Oracle) (s : Store) (j : Job) (x : String)
    (h : x ≠ j.id) : findJob (handleSending o s j).1 x = findJob s x := by
  rcases hbs : batchSendEmails o s (getProspectsForSending s j.id SENDING_BATCH_SIZE)
    with ⟨s1, res, inv⟩
  have h1 : s1.jobs = s.jobs := by
    have := jobs_batchSendEmails o (getProspectsForSending s j.id SENDING_BATCH_SIZE) s
    rw [hbs] at this; exact this
  simp only [handleSending, hbs]
  split
  · rw [findJob_updateJobStatus_ne _ _ _ _ h]
  · rw [findJob_incrementJobStat_ne _ _ _ _ _ h,
      findJob_incrementJobStat_ne _ _ _ _ _ h,
      findJob_eq_of_jobs_eq x h1]

theorem findJob_processJobCaught_ne (o : Oracle) (s : Store) (j : Job) (x : String)
    (h : x ≠ j.id) : findJob (processJobCaught o s j).1 x = findJob s x := by
  unfold processJobCaught
  by_cases ht : o.jobThrows j.id = true
  · simp [ht, findJob_updateJobStatus_ne s j.id x _ h]
  · simp only [ht, Bool.false_eq_true, if_false]
    cases hst : j.status <;> simp only [processJob, hst]
    · exact findJob_handleProspecting_ne o s j x h
    · exact findJob_handleProspecting_ne o s j x h
    · by_cases hd : o.discoveryThrows j.id = true
      · simp [hd, findJob_updateJobStatus_ne s j.id x _ h]
      · simp only [hd, Bool.false_eq_true, if_false]
        exact findJob_handleEmailDiscovery_ne s j x h
    · by_cases hd : o.sendingThrows j.id = true
      · simp [hd, findJob_updateJobStatus_ne s j.id x _ h]
      · simp only [hd, Bool.false_eq_true, if_false]
        exact findJob_handleSending_ne o s j x h

theorem findJob_foldl_ne (o : Oracle) (L : List Job) :
    ∀ (s : Store) (x : String), (∀ k ∈ L, x ≠ k.id) →
      findJob (L.foldl (fun st k => (processJobCaught o st k).1) s) x = findJob s x := by
  induction L with
  | nil => intro s x _; rfl
  | cons a t ih =>
    intro s x hx
    rw [List.foldl_cons, ih _ x (fun k hk => hx k (List.mem_cons_of_mem a hk)),
      findJob_processJobCaught_ne o s a x (hx a (List.mem_cons_self a t))]

theorem find?_id_of_mem_nodup (l : List Job) (j : Job)
    (hn : (l.map Job.id).Nodup) (hm : j ∈ l) :
    l.find? (fun k => k.id == j.id) = some j := by
  induction l with
  | nil => cases hm
  | cons a t ih =>
    rcases List.mem_cons.mp hm with rfl | hmt
    · simp [List.find?_cons]
    · have hna : a.id ∉ t.map Job.id := (List.nodup_cons.mp hn).1
      have ha : (a.id == j.id) = false := by
        simp only [beq_eq_false_iff_ne, ne_eq]
        intro he
        exact hna (he ▸ List.mem_map.mpr ⟨j, hmt, rfl⟩)
      rw [List.find?_cons, ha]
      exact ih (List.nodup_cons.mp hn).2 hmt

theorem findJob_of_mem_nodup (s : Store) (j : Job)
    (hn : (s.jobs.map Job.id).Nodup) (hm : j ∈ s.jobs) : findJob s j.id = some j :=
  find?_id_of_mem_nodup s.jobs j hn hm

theorem find?_first_cases {α : Type} (p : α → Bool) (l : List α) :
    (∃ pre a suf, l = pre ++ a :: suf ∧ (∀ c ∈ pre, p c = false) ∧ p a = true ∧
      l.find? p = some a) ∨
    ((∀ c ∈ l, p c = false) ∧ l.find? p = none) := by
  induction l with
  | nil => right; simp
  | cons a t ih =>
    cases hp : p a
    · rcases ih with ⟨pre, b, suf, heq, hpre, hb, hfind⟩ | ⟨hall, hnone⟩
      · left
        refine ⟨a :: pre, b, suf, by simp [heq], ?_, hb, ?_⟩
        · intro c hc
          rcases List.mem_cons.mp hc with rfl | hcp
          · exact hp
          · exact hpre c hcp
        · rw [List.find?_cons, hp, hfind]
      · right
        refine ⟨?_, by rw [List.find?_cons, hp, hnone]⟩
        intro c hc
        rcases List.mem_cons.mp hc with rfl | hct
        · exact hp
        · exact hall c hct
    · left
      exact ⟨[], a, t, rfl, by simp, hp, by rw [List.find?_cons, hp]⟩

theorem getLastD_cases {α : Type} (t : List α) (d : α) :
    t.getLastD d = d ∨ t.getLastD d ∈ t := by
  induction t generalizing d with
  | nil => left; rfl
  | cons a l ih =>
    rw [List.getLastD_cons]
    rcases ih a with he | hm
    · right; rw [he]; exact List.mem_cons_self a l
    · right; exact List.mem_cons_of_mem a hm

theorem findJob_if_draft_self (s : Store) (j : Job) (jb : Job)
    (hfind : findJob s j.id = some jb) :
    findJob (if j.status = JobStatus.draft
        then updateJobStatus s j.id JobStatus.prospecting else s) j.id =
      some (if j.status = JobStatus.draft
        then { jb with status := JobStatus.prospecting } else jb) := by
  by_cases hd : j.status = JobStatus.draft <;>
    simp [hd, findJob_updateJobStatus_self, hfind]

theorem findJob_handleProspecting_self (o : Oracle) (s : Store) (j : Job) (jb : Job)
    (hfind : findJob s j.id = some jb) :
    ∃ j', findJob (handleProspecting o s j).1 j.id = some j' ∧
      j'.status = ((handleProspecting o s j).2).getLastD jb.status := by
  simp only [handleProspecting]
  cases hp : o.placesResult j.id with
  | none =>
    rw [findJob_updateJobStatus_self, findJob_if_draft_self s j jb hfind]
    by_cases hd : j.status = JobStatus.draft <;>
      exact ⟨_, rfl, by simp [List.getLastD, hd]⟩
  | some bs =>
    rw [findJob_updateJobStatus_self, findJob_incrementJobStat_self,
      findJob_incrementJobStat_self,
      findJob_eq_of_jobs_eq j.id (jobs_batchCreateProspects _ _ _),
      findJob_if_draft_self s j jb hfind]
    by_cases hd : j.status = JobStatus.draft <;>
      exact ⟨_, rfl, by simp [List.getLastD, hd]⟩

theorem findJob_handleEmailDiscovery_self (s : Store) (j : Job) (jb : Job)
    (hfind : findJob s j.id = some jb) :
    ∃ j', findJob (handleEmailDiscovery s j).1 j.id = some j' ∧
      j'.status = ((handleEmailDiscovery s j).2).getLastD jb.status := by
  simp only [handleEmailDiscovery]
  split
  · rw [findJob_updateJobStatus_self, hfind]
    exact ⟨_, rfl, by simp [List.getLastD]⟩
  · split
    · split
      · rw [findJob_updateJobStatus_self, findJob_incrementJobStat_self,
          findJob_eq_of_jobs_eq j.id (jobs_applyDiscoveryResults _ _), hfind]
        exact ⟨_, rfl, by simp [List.getLastD]⟩
      · rw [findJob_incrementJobStat_self,
          findJob_eq_of_jobs_eq j.id (jobs_applyDiscoveryResults _ _), hfind]
        exact ⟨_, rfl, rfl⟩
    · rw [findJob_incrementJobStat_self,
        findJob_eq_of_jobs_eq j.id (jobs_applyDiscoveryResults _ _), hfind]
      exact ⟨_, rfl, rfl⟩

theorem findJob_handleSending_self (o : Oracle) (s : Store) (j : Job) (jb : Job)
    (hfind : findJob s j.id = some jb) :
    ∃ j', findJob (handleSending o s j).1 j.id = some j' ∧
      j'.status = ((handleSending o s j).2).getLastD jb.status := by
  rcases hbs : batchSendEmails o s (getProspectsForSending s j.id SENDING_BATCH_SIZE)
    with ⟨s1, res, inv⟩
  have h1 : s1.jobs = s.jobs := by
    have := jobs_batchSendEmails o (getProspectsForSending s j.id SENDING_BATCH_SIZE) s
    rw [hbs] at this; exact this
  simp only [handleSending, hbs]
  split
  · rw [findJob_updateJobStatus_self, hfind]
    exact ⟨_, rfl, by simp [List.getLastD]⟩
  · rw [findJob_incrementJobStat_self, findJob_incrementJobStat_self,
      findJob_eq_of_jobs_eq j.id h1, hfind]
    exact ⟨_, rfl, rfl⟩

theorem findJob_processJobCaught_self (o : Oracle) (s : Store) (j : Job) (jb : Job)
    (hfind : findJob s j.id = some jb) :
    ∃ j', findJob (processJobCaught o s j).1 j.id = some j' ∧
      j'.status = ((processJobCaught o s j).2).getLastD jb.status := by
  unfold processJobCaught
  by_cases ht : o.jobThrows j.id = true
  · simp only [ht, if_true]
    rw [findJob_updateJobStatus_self, hfind]
    exact ⟨_, rfl, by simp [List.getLastD]⟩
  · simp only [ht, Bool.false_eq_true, if_false]
    cases hst : j.status <;> simp only [processJob, hst]
    · exact findJob_handleProspecting_self o s j jb hfind
    · exact findJob_handleProspecting_self o s j jb hfind
    · by_cases hd : o.discoveryThrows j.id = true
      · simp only [hd, if_true]
        rw [findJob_updateJobStatus_self, hfind]
        exact ⟨_, rfl, by simp [List.getLastD]⟩
      · simp only [hd, Bool.false_eq_true, if_false]
        exact findJob_handleEmailDiscovery_self s j jb hfind
    · by_cases hd : o.sendingThrows j.id = true
      · simp only [hd, if_true]
        rw [findJob_updateJobStatus_self, hfind]
        exact ⟨_, rfl, by simp [List.getLastD]⟩
      · simp only [hd, Bool.false_eq_true, if_false]
        exact findJob_handleSending_self o s j jb hfind
    · exact ⟨jb, hfind, rfl⟩
    · exact ⟨jb, hfind, rfl⟩

theorem failed_not_in_trace (o : Oracle) (s : Store) (j : Job)
    (h : noJobFailure o j.id) : JobStatus.failed ∉ (processJobCaught o s j).2 := by
  obtain ⟨h1, h2, h3, h4⟩ := h
  unfold processJobCaught
  simp only [h1, Bool.false_eq_true, if_false]
  cases hst : j.status <;> simp only [processJob, hst]
  · simp only [handleProspecting, hst]
    cases hp : o.placesResult j.id with
    | none => exact absurd hp h4
    | some bs => simp
  · simp only [handleProspecting, hst]
    cases hp : o.placesResult j.id with
    | none => exact absurd hp h4
    | some bs => simp
  · simp only [h2, Bool.false_eq_true, if_false, handleEmailDiscovery]
    split
    · simp
    · split
      · split <;> simp
      · simp
  · simp only [h3, Bool.false_eq_true, if_false]
    rcases hbs : batchSendEmails o s (getProspectsForSending s j.id SENDING_BATCH_SIZE)
      with ⟨s1, res, inv⟩
    simp only [handleSending, hbs]
    split <;> simp
  · simp
  · simp

theorem sendEmailToProspect_unsubs (o : Oracle) (s : Store) (u : List Unsubscribe)
    (p : Prospect) :
    sendEmailToProspect o { s with unsubs := u } p =
      ({ (sendEmailToProspect o s p).1 with unsubs := u },
        (sendEmailToProspect o s p).2) := by
  unfold sendEmailToProspect
  by_cases h : p.discoveredEmail.getD "" = ""
  · simp [h]
  · simp only [h, if_false]
    cases hs : o.send p.id with
    | ok m => rfl
    | err er =>
      cases hb : (er.statusCode == some 400 || er.code == some 400)
      · simp [hb]
      · simp only [hb, if_true]; rfl

theorem batchSendEmails_unsubs (o : Oracle) (ps : List Prospect) :
    ∀ (s : Store) (u : List Unsubscribe),
      batchSendEmails o { s with unsubs := u } ps =
        ({ (batchSendEmails o s ps).1 with unsubs := u },
          (batchSendEmails o s ps).2) := by
  induction ps with
  | nil => intro s u; rfl
  | cons p rest ih =>
    intro s u
    rcases hse : sendEmailToProspect o s p with ⟨s1, r, inv1⟩
    rcases hbr : batchSendEmails o s1 rest with ⟨s2, res, inv2⟩
    have h1 : sendEmailToProspect o { s with unsubs := u } p =
        ({ s1 with unsubs := u }, r, inv1) := by
      rw [sendEmailToProspect_unsubs o s u p, hse]
    have h2 : batchSendEmails o { s1 with unsubs := u } rest =
        ({ s2 with unsubs := u }, res, inv2) := by
      rw [ih s1 u, hbr]
    by_cases hr : r.success = true <;>
      simp [batchSendEmails, hse, hbr, h1, h2, hr]

theorem findProspect_updateProspectStatus_ne (s : Store) (pid x : String)
    (st : ProspectStatus) (e : Option String) (h : x ≠ pid) :
    findProspect (updateProspectStatus s pid st e) x = findProspect s x := by
  unfold updateProspectStatus
  rw [findProspect_updateProspectById]
  · simp [h]
  · intro p
    cases e with
    | none => rfl
    | some es => by_cases he : es = "" <;> simp [he]

theorem findProspect_sendEmailToProspect_ne (o : Oracle) (s : Store) (p : Prospect)
    (x : String) (h : x ≠ p.id) :
    findProspect (sendEmailToProspect o s p).1 x = findProspect s x := by
  unfold sendEmailToProspect
  by_cases hd : p.discoveredEmail.getD "" = ""
  · simp [hd]
  · simp only [hd, if_false]
    cases hs : o.send p.id with
    | ok m =>
      rw [findProspect_updateProspectById]
      · simp only [h, if_false]
        exact findProspect_updateProspectStatus_ne s p.id x _ _ h
      · intro q; rfl
    | err er =>
      cases hb : (er.statusCode == some 400 || er.code == some 400)
      · simp [hb]
      · simp only [hb, if_true]
        rw [findProspect_updateProspectById]
        · simp only [h, if_false]
          exact findProspect_updateProspectStatus_ne s p.id x _ _ h
        · intro q; rfl

theorem findProspect_batchSendEmails_ne (o : Oracle) (ps : List Prospect) :
    ∀ (s : Store) (x : String), (∀ p ∈ ps, x ≠ p.id) →
      findProspect (batchSendEmails o s ps).1 x = findProspect s x := by
  induction ps with
  | nil => intro s x _; rfl
  | cons p rest ih =>
    intro s x hx
    rcases hse : sendEmailToProspect o s p with ⟨s1, r, inv1⟩
    rcases hbr : batchSendEmails o s1 rest with ⟨s2, res, inv2⟩
    have h1 : findProspect s1 x = findProspect s x := by
      have := findProspect_sendEmailToProspect_ne o s p x (hx p (List.mem_cons_self p rest))
      rw [hse] at this; exact this
    have h2 : findProspect s2 x = findProspect s1 x := by
      have := ih s1 x (fun q hq => hx q (List.mem_cons_of_mem p hq))
      rw [hbr] at this; exact this
    by_cases hr : r.success = true <;>
      simp [batchSendEmails, hse, hbr, hr, h1, h2]

theorem truncate500_length_le (m : String) : (truncate500 m).length ≤ 500 := by
  have : (truncate500 m).length = (m.data.take 500).length := rfl
  rw [this]
  exact List.length_take_le 500 m.data

theorem jsRound_ge {q : ℚ} {z : ℤ} (h : (z : ℚ) ≤ q) : z ≤ jsRound q := by
  unfold jsRound
  exact Int.le_floor.mpr (by linarith)

theorem jsRound_le {q : ℚ} {z : ℤ} (h : q ≤ (z : ℚ)) : jsRound q ≤ z := by
  unfold jsRound
  have hlt : q + 1 / 2 < ((z + 1 : ℤ) : ℚ) := by push_cast; linarith
  exact Int.lt_add_one_iff.mp (Int.floor_lt.mpr hlt)

/-- C5 (counterexample): in scenario B, the ledger record created by
unsubscribing `info@foo.com` carries the domain `foo.com`, so every candidate
for `http://foo.com` is domain-suppressed: the discovered email is NOT
`contact@foo.com` — the prospect is marked `no_email` with no address, even
though no ledger record names `contact@foo.com`. -/
theorem scenarioB_domain_suppressed_cx :
    isUnsubscribed fooSuppressedStore "info@foo.com" = true ∧
    fooSuppressedStore.unsubs.all (fun u => u.email != "contact@foo.com") = true ∧
    fooProspect.website = some "http://foo.com" ∧
    discoverEmailForProspect fooSuppressedStore fooProspect =
      (none, ProspectStatus.no_email) := by
  refine ⟨by decide, by decide, rfl, by decide⟩

/-- C5 (amended): for a prospect with a non-empty website, an unparsable
domain yields `no_email`; otherwise the candidates are generated in the fixed
order info@, contact@, hello@, admin@, support@, business@ on the domain, and
the first candidate the ledger does not suppress (by exact email or by
domain) is returned with `email_found`, every earlier candidate being
suppressed; if every candidate is suppressed the result is `no_email` with no
address.  Because a ledger record always carries its email's domain,
suppressing `info@foo.com` suppresses the whole `foo.com` domain, so scenario
B yields `no_email`, not `contact@foo.com`. -/
theorem email_inference_first_unsuppressed (s : Store) (p : Prospect) (w : String)
    (hw : p.website = some w) (hne : w ≠ "") :
    (extractDomain w = none →
      discoverEmailForProspect s p = (none, ProspectStatus.no_email)) ∧
    (∀ d, extractDomain w = some d →
      generateInferredEmails d =
        ["info@" ++ d, "contact@" ++ d, "hello@" ++ d, "admin@" ++ d,
          "support@" ++ d, "business@" ++ d] ∧
      ((∃ pre e suf, generateInferredEmails d = pre ++ e :: suf ∧
          (∀ c ∈ pre, isUnsubscribed s c = true) ∧ isUnsubscribed s e = false ∧
          discoverEmailForProspect s p = (some e, ProspectStatus.email_found)) ∨
        ((∀ c ∈ generateInferredEmails d, isUnsubscribed s c = true) ∧
          discoverEmailForProspect s p = (none, ProspectStatus.no_email)))) := by
  have hget : p.website.getD "" = w := by rw [hw]; rfl
  constructor
  · intro hd
    unfold discoverEmailForProspect
    rw [hget]
    simp [hne, hd]
  · intro d hd
    refine ⟨rfl, ?_⟩
    rcases find?_first_cases (fun e => !isUnsubscribed s e) (generateInferredEmails d)
      with ⟨pre, e, suf, heq, hpre, he, hfind⟩ | ⟨hall, hnone⟩
    · left
      refine ⟨pre, e, suf, heq, ?_, ?_, ?_⟩
      · intro c hc
        simpa using hpre c hc
      · simpa using he
      · unfold discoverEmailForProspect
        rw [hget]
        simp [hne, hd, hfind]
    · right
      refine ⟨fun c hc => by simpa using hall c hc, ?_⟩
      unfold discoverEmailForProspect
      rw [hget]
      simp [hne, hd, hnone]

/-- C5 (witness): the candidate list for `foo.com` in its fixed order,
obtained through the amended theorem at scenario B's concrete input. -/
theorem email_inference_first_unsuppressed_w :
    generateInferredEmails "foo.com" =
      ["info@foo.com", "contact@foo.com", "hello@foo.com", "admin@foo.com",
        "support@foo.com", "business@foo.com"] :=
  ((email_inference_first_unsuppressed fooSuppressedStore fooProspect "http://foo.com"
    rfl (by decide)).2 "foo.com" (by decide)).1

/-- C1 (counterexample): with `info@foo.com` in the Suppression Ledger and a
prospect already holding that address in `email_found` status, the batch send
hands the suppressed address to the provider (and marks the prospect `sent`):
the Outreach Sender IS invoked for a suppressed address, with no ledger
consultation before the send. -/
theorem sender_invoked_for_suppressed_email_cx :
    isUnsubscribed cxSendStore "info@foo.com" = true ∧
    (batchSendEmails baseOracle cxSendStore [fooEmailFoundProspect]).2.2 =
      ["info@foo.com"] ∧
    ((batchSendEmails baseOracle cxSendStore [fooEmailFoundProspect]).1.prospects.map
      Prospect.status) = [ProspectStatus.sent] := by
  refine ⟨by decide, by decide, by decide⟩

/-- C1 (amended): the Suppression Ledger is consulted during email inference
only — the Email Inference Engine never returns a suppressed address — while
the send path performs no ledger query at all: the entire outcome of the
batch send (updated records, counts, and the addresses handed to the
provider) is independent of the ledger contents, so an address suppressed
after discovery can still be sent. -/
theorem suppression_checked_only_at_inference :
    (∀ (s : Store) (p : Prospect) (e : String), isUnsubscribed s e = true →
      (discoverEmailForProspect s p).1 ≠ some e) ∧
    (∀ (o : Oracle) (s : Store) (u : List Unsubscribe) (ps : List Prospect),
      batchSendEmails o { s with unsubs := u } ps =
        ({ (batchSendEmails o s ps).1 with unsubs := u },
          (batchSendEmails o s ps).2)) := by
  constructor
  · intro s p e hsup
    by_cases hw : p.website.getD "" = ""
    · unfold discoverEmailForProspect
      simp [hw]
    · cases hd : extractDomain (p.website.getD "") with
      | none =>
        unfold discoverEmailForProspect
        simp [hw, hd]
      | some d =>
        cases hf : (generateInferredEmails d).find? (fun c => !isUnsubscribed s c) with
        | none =>
          unfold discoverEmailForProspect
          simp [hw, hd, hf]
        | some c =>
          unfold discoverEmailForProspect
          simp only [hw, if_false, hd, hf]
          intro heq
          have hpc := List.find?_some hf
          have hce : c = e := by simpa using heq
          subst hce
          rw [hsup] at hpc
          exact absurd hpc (by decide)
  · intro o s u ps
    exact batchSendEmails_unsubs o ps s u

/-- C1 (witness): at scenario B's store, `info@foo.com` is suppressed and the
inference engine indeed does not return it. -/
theorem suppression_checked_only_at_inference_w :
    (discoverEmailForProspect fooSuppressedStore fooProspect).1 ≠ some "info@foo.com" :=
  suppression_checked_only_at_inference.1 fooSuppressedStore fooProspect "info@foo.com"
    (by decide)

/-- C6 (counterexample): an HTTP 403 rejection is a 400-class (4xx)
client-side status, yet the send path leaves the store — in particular the
prospect's status — completely unchanged: only status 400 exactly triggers
the `bounced` marking. -/
theorem non400_client_error_not_bounced_cx :
    isHttp400Class 403 = true ∧
    (sendEmailToProspect err403Oracle cxStoreEF fooEmailFoundProspect).1 = cxStoreEF ∧
    (sendEmailToProspect err403Oracle cxStoreEF fooEmailFoundProspect).2.1.success = false ∧
    findProspect (sendEmailToProspect err403Oracle cxStoreEF fooEmailFoundProspect).1 "p1" =
      some fooEmailFoundProspect := by
  refine ⟨by decide, by decide, by decide, by decide⟩

/-- C6 (amended): when a send fails, the prospect is marked `bounced` (with
`bouncedAt` timestamp and a reason truncated to at most 500 characters)
exactly when the provider error carries `statusCode === 400` or
`code === 400` — not for the whole 400 class: any other failure, including
other 4xx statuses, leaves the store and the prospect's status unchanged, so
the prospect can be retried on a later tick. -/
theorem send_failure_bounce_classification (o : Oracle) (s : Store) (p : Prospect)
    (e : String) (er : SgError) (q : Prospect)
    (hde : p.discoveredEmail = some e) (hne : e ≠ "")
    (hsend : o.send p.id = SendOutcome.err er)
    (hq : findProspect s p.id = some q) :
    ((er.statusCode = some 400 ∨ er.code = some 400) →
      ∃ q', findProspect (sendEmailToProspect o s p).1 p.id = some q' ∧
        q'.status = ProspectStatus.bounced ∧
        q'.bouncedAt = some o.now ∧
        q'.bounceReason = er.message.map truncate500 ∧
        (∀ r, q'.bounceReason = some r → r.length ≤ 500)) ∧
    ((er.statusCode ≠ some 400 ∧ er.code ≠ some 400) →
      (sendEmailToProspect o s p).1 = s ∧
      (sendEmailToProspect o s p).2.1.success = false) := by
  have hgd : p.discoveredEmail.getD "" = e := by rw [hde]; rfl
  constructor
  · intro h400
    have hb : (er.statusCode == some 400 || er.code == some 400) = true := by
      rcases h400 with h | h <;> simp [h]
    unfold sendEmailToProspect
    rw [hgd]
    simp only [hne, if_false, hsend, hb, if_true]
    rw [findProspect_updateProspectById]
    · simp only [if_pos rfl]
      unfold updateProspectStatus
      rw [findProspect_updateProspectById]
      · simp only [if_pos rfl, hq]
        refine ⟨_, rfl, ?_, rfl, rfl, ?_⟩
        · simp [hne]
        · intro r hr
          rcases hmsg : er.message with _ | m
          · rw [hmsg] at hr; simp at hr
          · rw [hmsg] at hr
            simp only [Option.map_some] at hr
            obtain rfl : truncate500 m = r := by simpa using hr
            exact truncate500_length_le m
      · intro a
        by_cases hae : e = "" <;> simp [hae]
    · intro a; rfl
  · intro hnot
    have hb : (er.statusCode == some 400 || er.code == some 400) = false := by
      rw [Bool.or_eq_false_iff]
      constructor <;> simp [beq_eq_false_iff_ne, hnot.1, hnot.2]
    unfold sendEmailToProspect
    rw [hgd]
    simp only [hne, if_false, hsend, hb]
    exact ⟨rfl, rfl⟩

/-- C6 (witness): a concrete HTTP-400 rejection marks the prospect bounced
with the truncated reason recorded. -/
theorem send_failure_bounce_classification_w :
    (findProspect (sendEmailToProspect err400Oracle cxStoreEF fooEmailFoundProspect).1
        "p1").map Prospect.status = some ProspectStatus.bounced := by
  obtain ⟨q', hq', hst, _, _, _⟩ :=
    (send_failure_bounce_classification err400Oracle cxStoreEF fooEmailFoundProspect
      "info@foo.com" { statusCode := some 400, message := some "bad request" }
      fooEmailFoundProspect rfl (by decide) rfl (by decide)).1 (Or.inl rfl)
  have hid : ("p1" : String) = fooEmailFoundProspect.id := rfl
  rw [hid, hq']
  simp [hst]

/-- C2 (code bug): a `discovering` job with exactly one `found` prospect — the
fetched batch (size 1 < 50) is processed and zero `found` prospects remain,
yet the job stays `discovering` with no status write: the same-tick re-check
reads `getProspectsForJob(job, {status: found}).total`, which counts ALL
prospects of the job (here 1) instead of the remaining `found` ones (0), so
the advance to `sending` that the comment and the spec describe never happens
in the same tick. -/
theorem discovering_handler_stays_at_failing_input :
    (getProspectsForJob cxDiscoverStore "j1" (some ProspectStatus.found)
        (some EMAIL_DISCOVERY_BATCH_SIZE)).1.length = 1 ∧
    foundCount (handleEmailDiscovery cxDiscoverStore (cxJob "j1" JobStatus.discovering)).1
        "j1" = 0 ∧
    (getProspectsForJob
        (handleEmailDiscovery cxDiscoverStore (cxJob "j1" JobStatus.discovering)).1 "j1"
        (some ProspectStatus.found) none).2 = 1 ∧
    jobStatusIn (handleEmailDiscovery cxDiscoverStore (cxJob "j1" JobStatus.discovering)).1
        "j1" = some JobStatus.discovering ∧
    (handleEmailDiscovery cxDiscoverStore (cxJob "j1" JobStatus.discovering)).2 = [] := by
  refine ⟨by decide, by decide, by decide, by decide, by decide⟩

/-- C9 (counterexample): a radius of 0.5 (below the minimum 1) produces the
default 5, not the minimum 1; a max-businesses of 0.5 produces the default
10, not the minimum 1 — below-minimum values are NOT clamped to the minimum. -/
theorem below_minimum_gets_default_cx :
    halfQ = 1 / 2 ∧
    (postJob "job1" "bakery" "10001" "US" (some halfQ) (some 100)).map Job.radiusKm =
      Except.ok 5 ∧ (5 : ℤ) ≠ 1 ∧
    (postJob "job1" "bakery" "10001" "US" (some 100) (some halfQ)).map Job.maxBusinesses =
      Except.ok 10 ∧ (10 : ℤ) ≠ 1 := by
  refine ⟨?_, by decide, by decide, by decide, by decide⟩
  have h1 : halfQ = Rat.divInt 1 2 := Rat.mk'_eq_divInt
  rw [h1, Rat.divInt_eq_div]
  norm_num

/-- C9 (amended): the sanitized radius always lands in 1–50 and the sanitized
max-businesses in 1–1000; a value above the maximum becomes the maximum, but
a value below the minimum (or NaN) becomes the DEFAULT — 5 km, 10 businesses —
not the minimum; in-range values are rounded.  A job created through
`POST /api/jobs` starts in `draft` with all six stats counters zero and
carries exactly the sanitized numbers. -/
theorem job_creation_clamps_and_defaults (r m : Option ℚ) (q : ℚ)
    (jobId niche targetZip country : String) :
    (1 ≤ sanitizeRadius r ∧ sanitizeRadius r ≤ 50) ∧
    (1 ≤ sanitizeMaxBusinesses m ∧ sanitizeMaxBusinesses m ≤ 1000) ∧
    (50 < q → sanitizeRadius (some q) = 50) ∧
    (q < 1 → sanitizeRadius (some q) = 5) ∧
    sanitizeRadius none = 5 ∧
    (1000 < q → sanitizeMaxBusinesses (some q) = 1000) ∧
    (q < 1 → sanitizeMaxBusinesses (some q) = 10) ∧
    sanitizeMaxBusinesses none = 10 ∧
    (∀ j, postJob jobId niche targetZip country r m = Except.ok j →
      j.status = JobStatus.draft ∧ j.stats = zeroStats ∧
      j.radiusKm = sanitizeRadius r ∧ j.maxBusinesses = sanitizeMaxBusinesses m) := by
  have hrad : ∀ (x : Option ℚ), 1 ≤ sanitizeRadius x ∧ sanitizeRadius x ≤ 50 := by
    intro x
    rcases x with _ | p
    · exact ⟨by decide, by decide⟩
    · simp only [sanitizeRadius]
      by_cases h1 : p < 1
      · rw [if_pos h1]; exact ⟨by norm_num, by norm_num⟩
      · by_cases h2 : p > 50
        · rw [if_neg h1, if_pos h2]; exact ⟨by norm_num, le_refl 50⟩
        · rw [if_neg h1, if_neg h2]
          push_neg at h1 h2
          exact ⟨jsRound_ge (by push_cast; linarith),
            jsRound_le (by push_cast; linarith)⟩
  have hmax : ∀ (x : Option ℚ), 1 ≤ sanitizeMaxBusinesses x ∧ sanitizeMaxBusinesses x ≤ 1000 := by
    intro x
    rcases x with _ | p
    · exact ⟨by decide, by decide⟩
    · simp only [sanitizeMaxBusinesses]
      by_cases h1 : p < 1
      · rw [if_pos h1]; exact ⟨by norm_num, by norm_num⟩
      · by_cases h2 : p > 1000
        · rw [if_neg h1, if_pos h2]; exact ⟨by norm_num, le_refl 1000⟩
        · rw [if_neg h1, if_neg h2]
          push_neg at h1 h2
          exact ⟨jsRound_ge (by push_cast; linarith),
            jsRound_le (by push_cast; linarith)⟩
  refine ⟨hrad r, hmax m, ?_, ?_, rfl, ?_, ?_, rfl, ?_⟩
  · intro hq
    simp only [sanitizeRadius]
    rw [if_neg (by intro hlt; linarith), if_pos hq]
  · intro hq
    simp only [sanitizeRadius]
    rw [if_pos hq]
  · intro hq
    simp only [sanitizeMaxBusinesses]
    rw [if_neg (by intro hlt; linarith), if_pos hq]
  · intro hq
    simp only [sanitizeMaxBusinesses]
    rw [if_pos hq]
  · intro j hj
    unfold postJob at hj
    split at hj
    · exact absurd hj (by simp)
    · split at hj
      · exact absurd hj (by simp)
      · split at hj
        · exact absurd hj (by simp)
        · split at hj
          · exact absurd hj (by simp)
          · split at hj
            · exact absurd hj (by simp)
            · have hj' := Except.ok.inj hj
              subst hj'
              exact ⟨rfl, rfl, rfl, rfl⟩

/-- C9 (witness): a valid request produces a draft job with zero stats; the
clamping facts at the concrete values 100 (above max) and 0.5 (below min). -/
theorem job_creation_clamps_and_defaults_w :
    postJob "job1" "bakery" "10001" "US" (some 100) (some 5000) = Except.ok wCreatedJob ∧
    wCreatedJob.status = JobStatus.draft ∧
    wCreatedJob.stats = zeroStats ∧
    sanitizeRadius (some 100) = 50 ∧
    sanitizeRadius (some halfQ) = 5 := by
  have h := job_creation_clamps_and_defaults (some 100) (some 5000) 100 "job1" "bakery"
    "10001" "US"
  have h2 := job_creation_clamps_and_defaults (some 100) (some 5000) halfQ "job1" "bakery"
    "10001" "US"
  refine ⟨by decide, ?_, ?_, ?_, ?_⟩
  · exact (h.2.2.2.2.2.2.2.2 wCreatedJob (by decide)).1
  · exact (h.2.2.2.2.2.2.2.2 wCreatedJob (by decide)).2.1
  · exact h.2.2.1 (by norm_num)
  · exact h2.2.2.2.1 (by decide)

/-- C4 (counterexample): a provider with three full pages of 20 (tokens
chaining through all three) and max-count 50 — the code returns only the
first two pages (40 businesses), although the claimed accumulation loop
(modelled by `specSearchBusinesses`) would reach exactly 50: only one
continuation page is ever fetched. -/
theorem searchBusinesses_stops_after_two_pages_cx :
    searchBusinesses cxPlaces 50 = Except.ok (cxPage 0 ++ cxPage 1) ∧
    (cxPage 0 ++ cxPage 1).length = 40 ∧
    (specSearchBusinesses cxPlaces 50).length = 50 := by
  refine ⟨by decide, by decide, by decide⟩

/-- C4 (amended): when the first page carries a continuation token and fewer
businesses than max-count, exactly one continuation page is fetched (never a
third): every returned business comes from the first two provider pages, and
the returned sequence is truncated to at most max-count (never longer). -/
theorem searchBusinesses_single_continuation (po : PlacesOracle) (maxB : Nat)
    (bs : List PlacesBusiness) (h : searchBusinesses po maxB = Except.ok bs) :
    bs.length ≤ maxB ∧ ∀ b ∈ bs, b ∈ (po.pages.take 2).flatten := by
  unfold searchBusinesses at h
  cases hg : po.geocodeOk
  · rw [hg] at h; simp at h
  · cases hfp : po.firstPageOk
    · rw [hg, hfp] at h; simp at h
    · rw [hg, hfp] at h
      simp only [Bool.not_true, Bool.false_eq_true, if_false] at h
      split at h
      · rename_i hpg
        simp only [Except.ok.injEq] at h
        subst h
        simp
      · rename_i p0 rest hpg
        split at h
        · rename_i hcond
          obtain ⟨hre, hlen⟩ := hcond
          simp only [Except.ok.injEq] at h
          subst h
          refine ⟨List.length_take_le _ _, ?_⟩
          intro b hb
          have hb2 := List.take_subset _ _ hb
          rw [hpg]
          cases hrest : rest with
          | nil => rw [hrest] at hre; simp at hre
          | cons r1 rest2 =>
            rw [hrest] at hb2
            rcases List.mem_append.mp hb2 with hbl | hbr
            · have hbp : b ∈ p0 := List.take_subset _ _ hbl
              simp [List.flatten]
              exact Or.inl hbp
            · cases hok : po.nextPageOk
              · rw [hok] at hbr
                simp at hbr
              · rw [hok] at hbr
                simp only [if_true] at hbr
                have hbr1 : b ∈ r1 := by
                  have hsub := List.take_subset _ _ hbr
                  simpa using hsub
                simp [List.flatten]
                exact Or.inr hbr1
        · simp only [Except.ok.injEq] at h
          subst h
          refine ⟨List.length_take_le _ _, ?_⟩
          intro b hb
          have hbp : b ∈ p0 := List.take_subset _ _ (List.take_subset _ _ hb)
          rw [hpg]
          cases rest with
          | nil => simpa using hbp
          | cons r1 rest2 =>
            simp [List.flatten]
            exact Or.inl hbp

/-- C4 (witness): the amended theorem at the concrete three-page provider. -/
theorem searchBusinesses_single_continuation_w :
    (cxPage 0 ++ cxPage 1).length ≤ 50 :=
  (searchBusinesses_single_continuation cxPlaces 50 (cxPage 0 ++ cxPage 1) (by decide)).1

/-- C8: for an unsubscribe request whose token decodes to a prospectId:email
pair naming an existing prospect — when the decoded email differs from the
prospect's stored `discoveredEmail` the request is rejected with HTTP 400, no
Suppression Ledger entry is written and the store (prospect record included)
is unchanged; when it matches, exactly one ledger record for the email (and
its domain) is appended and the prospect is marked `unsubscribed` with a
timestamp. -/
theorem unsubscribe_mismatch_rejected (s : Store) (now : Nat) (decoded : String)
    (pid email : String) (rest : List String) (p : Prospect)
    (hsplit : splitOnChar (Char.ofNat 58) decoded = pid :: email :: rest)
    (hpid : pid ≠ "") (hemail : email ≠ "")
    (hfind : findProspect s pid = some p) :
    (p.discoveredEmail ≠ some email →
      unsubscribeHandler s now decoded =
        (s, UnsubResponse.badRequest "Invalid unsubscribe link: email mismatch")) ∧
    (p.discoveredEmail = some email →
      (unsubscribeHandler s now decoded).1.unsubs =
        s.unsubs ++ [mkUnsubscribe email (some p.jobId)] ∧
      findProspect (unsubscribeHandler s now decoded).1 pid =
        some { p with status := ProspectStatus.unsubscribed, unsubscribedAt := some now } ∧
      (unsubscribeHandler s now decoded).2 = UnsubResponse.confirmed email) := by
  unfold unsubscribeHandler
  rw [hsplit]
  simp only [List.getD_cons_zero, List.getD_cons_succ]
  rw [if_neg (by simp [hpid, hemail])]
  rw [hfind]
  dsimp only
  constructor
  · intro hne
    rw [if_pos (by simpa using hne)]
  · intro heq
    rw [if_neg (by simpa using heq)]
    refine ⟨rfl, ?_, rfl⟩
    rw [findProspect_updateProspectById]
    · rw [if_pos rfl]
      have hpr : findProspect (addUnsubscribe s email (some p.jobId)) pid =
          findProspect s pid :=
        findProspect_eq_of_prospects_eq pid (prospects_addUnsubscribe s email (some p.jobId))
      rw [hpr, hfind]
      rfl
    · intro a; rfl

/-- C8 (witness): a matching token for the concrete prospect appends the
ledger record and marks the prospect unsubscribed. -/
theorem unsubscribe_mismatch_rejected_w :
    (unsubscribeHandler wUnsubStore 7 "p1:info@foo.com").1.unsubs =
      wUnsubStore.unsubs ++ [mkUnsubscribe "info@foo.com" (some "j1")] := by
  have h := (unsubscribe_mismatch_rejected wUnsubStore 7 "p1:info@foo.com" "p1"
    "info@foo.com" [] fooEmailFoundProspect (by decide) (by decide) (by decide)
    (by decide)).2 (by decide)
  exact h.1

/-- C10: running the manual send trigger on a job in `sending` status leaves
every job record untouched — in particular `stats.sent` and `stats.bounced`
are unchanged — and modifies no prospect outside the fetched batch; by
contrast the scheduler's sending stage (`handleSending`) on the same store
increments `stats.sent` and `stats.bounced` by exactly the batch's reported
counts. -/
theorem manualSend_frame_no_job_write (o : Oracle) (s : Store) (jobId : String)
    (job : Job) (hfind : findJob s jobId = some job)
    (hst : job.status = JobStatus.sending) (hjid : jobId ≠ "") :
    (manualSend o s jobId).1.jobs = s.jobs ∧
    (∀ pid, (∀ p ∈ getProspectsForSending s jobId 10, pid ≠ p.id) →
      findProspect (manualSend o s jobId).1 pid = findProspect s pid) ∧
    ∃ job', findJob (handleSending o s job).1 job.id = some job' ∧
      job'.stats.sent = job.stats.sent +
        (batchSendEmails o s (getProspectsForSending s job.id SENDING_BATCH_SIZE)).2.1.sent ∧
      job'.stats.bounced = job.stats.bounced +
        (batchSendEmails o s (getProspectsForSending s job.id SENDING_BATCH_SIZE)).2.1.failed := by
  have hid : job.id = jobId := by
    have := List.find?_some hfind
    simpa using this
  have hmanual : (manualSend o s jobId).1.jobs = s.jobs ∧
      (∀ pid, (∀ p ∈ getProspectsForSending s jobId 10, pid ≠ p.id) →
        findProspect (manualSend o s jobId).1 pid = findProspect s pid) := by
    unfold manualSend
    rw [if_neg hjid, hfind]
    dsimp only
    rw [if_neg (by simp [hst])]
    by_cases hbatch : (getProspectsForSending s jobId 10).isEmpty = true
    · rw [if_pos hbatch]
      exact ⟨rfl, fun _ _ => rfl⟩
    · rw [if_neg hbatch]
      rcases hbs2 : batchSendEmails o s (getProspectsForSending s jobId 10)
        with ⟨s1, res, inv⟩
      dsimp only
      have h1 : s1.jobs = s.jobs := by
        have hall := jobs_batchSendEmails o (getProspectsForSending s jobId 10) s
        rw [hbs2] at hall; exact hall
      refine ⟨h1, ?_⟩
      intro pid hpid
      have hall := findProspect_batchSendEmails_ne o (getProspectsForSending s jobId 10)
        s pid hpid
      rw [hbs2] at hall
      exact hall
  refine ⟨hmanual.1, hmanual.2, ?_⟩
  rcases hbs : batchSendEmails o s (getProspectsForSending s job.id SENDING_BATCH_SIZE)
    with ⟨s1, res, inv⟩
  have h1 : s1.jobs = s.jobs := by
    have := jobs_batchSendEmails o (getProspectsForSending s job.id SENDING_BATCH_SIZE) s
    rw [hbs] at this; exact this
  have hfind' : findJob s job.id = some job := by rw [hid]; exact hfind
  simp only [handleSending, hbs]
  split
  · rename_i hempty
    rw [findJob_updateJobStatus_self, hfind']
    refine ⟨_, rfl, ?_, ?_⟩ <;>
      · have hb0 : batchSendEmails o s (getProspectsForSending s job.id SENDING_BATCH_SIZE) =
            (s, ⟨0, 0, []⟩, []) := by
          have he : getProspectsForSending s job.id SENDING_BATCH_SIZE = [] := by
            simpa using hempty
          rw [he]; rfl
        rw [hb0] at hbs
        have hres : res = ⟨0, 0, []⟩ := by
          have hca := congrArg (fun t => t.2.1) hbs
          simpa using hca.symm
        simp [hres]
  · rw [findJob_incrementJobStat_self, findJob_incrementJobStat_self,
      findJob_eq_of_jobs_eq job.id h1, hfind']
    refine ⟨_, rfl, ?_, ?_⟩ <;> simp [Stats.incr]

/-- C10 (witness): on the concrete sending-status store the manual trigger
leaves the job records untouched. -/
theorem manualSend_frame_no_job_write_w :
    (manualSend baseOracle wSendStore "j1").1.jobs = wSendStore.jobs :=
  (manualSend_frame_no_job_write baseOracle wSendStore "j1"
    (cxJob "j1" JobStatus.sending) (by decide) rfl (by decide)).1

theorem chain'_one (a : JobStatus) : List.Chain' allowedEdge [a] :=
  List.chain'_singleton a

theorem chain'_two {a b : JobStatus} (h : allowedEdgeB a b = true) :
    List.Chain' allowedEdge [a, b] :=
  List.chain'_cons.mpr ⟨h, List.chain'_singleton b⟩

theorem chain'_three {a b c : JobStatus} (h1 : allowedEdgeB a b = true)
    (h2 : allowedEdgeB b c = true) : List.Chain' allowedEdge [a, b, c] :=
  List.chain'_cons.mpr ⟨h1, chain'_two h2⟩

theorem chain_trace_processJob (o : Oracle) (s : Store) (j : Job) :
    List.Chain' allowedEdge (j.status :: (processJob o s j).2) := by
  cases hst : j.status <;> simp only [processJob, hst]
  · simp only [handleProspecting, hst]
    cases hp : o.placesResult j.id <;> simp only [hp]
    · exact chain'_three (by decide) (by decide)
    · exact chain'_three (by decide) (by decide)
  · simp only [handleProspecting, hst]
    cases hp : o.placesResult j.id <;> simp only [hp]
    · exact chain'_two (by decide)
    · exact chain'_two (by decide)
  · by_cases hd : o.discoveryThrows j.id = true
    · simp only [hd, if_true]
      exact chain'_two (by decide)
    · simp only [hd, Bool.false_eq_true, if_false, handleEmailDiscovery]
      split
      · exact chain'_two (by decide)
      · split
        · split
          · exact chain'_two (by decide)
          · exact chain'_one _
        · exact chain'_one _
  · by_cases hd : o.sendingThrows j.id = true
    · simp only [hd, if_true]
      exact chain'_two (by decide)
    · simp only [hd, Bool.false_eq_true, if_false]
      rcases hbs : batchSendEmails o s (getProspectsForSending s j.id SENDING_BATCH_SIZE)
        with ⟨s1, res, inv⟩
      simp only [handleSending, hbs]
      split
      · exact chain'_two (by decide)
      · exact chain'_one _
  · exact chain'_one _
  · exact chain'_one _

/-- C7: under the Job Progression Engine every job-status write follows the
pipeline edges draft → prospecting → discovering → sending → completed, with
`failed` written only over a non-terminal status: (1) the per-job step's
status-write trace is a chain of allowed edges from the job's current status;
(2) so is the trace of the step with the tick-level catch, for any job the
tick actually processes (non-terminal); (3) a `completed` or `failed` job is
untouched by the per-job step; (4) a `completed` or `failed` job record
survives a whole tick unchanged. -/
theorem job_status_transitions_follow_edges (o : Oracle) (s : Store) (j : Job) :
    List.Chain' allowedEdge (j.status :: (processJob o s j).2) ∧
    (isActiveStatus j.status = true →
      List.Chain' allowedEdge (j.status :: (processJobCaught o s j).2)) ∧
    ((j.status = JobStatus.completed ∨ j.status = JobStatus.failed) →
      processJob o s j = (s, [])) ∧
    (∀ (jid : String) (jb : Job) (n : Nat) (final : Store),
      (s.jobs.map Job.id).Nodup →
      findJob s jid = some jb →
      (jb.status = JobStatus.completed ∨ jb.status = JobStatus.failed) →
      cronTick o s = Except.ok (n, final) →
      findJob final jid = some jb) := by
  refine ⟨chain_trace_processJob o s j, ?_, ?_, ?_⟩
  · intro hact
    unfold processJobCaught
    by_cases ht : o.jobThrows j.id = true
    · simp only [ht, if_true]
      cases hst : j.status <;> rw [hst] at hact
      · exact chain'_two (by decide)
      · exact chain'_two (by decide)
      · exact chain'_two (by decide)
      · exact chain'_two (by decide)
      · exact absurd hact (by decide)
      · exact absurd hact (by decide)
    · simp only [ht, Bool.false_eq_true, if_false]
      exact chain_trace_processJob o s j
  · intro hterm
    rcases hterm with hc | hc <;> simp [processJob, hc]
  · intro jid jb n final hn hfind hterm htick
    unfold cronTick at htick
    by_cases hf : o.fetchFails = true
    · rw [if_pos hf] at htick
      cases htick
    · rw [if_neg hf] at htick
      simp only [Except.ok.injEq, Prod.mk.injEq] at htick
      obtain ⟨hn2, hfinal⟩ := htick
      subst hfinal
      have hids : ∀ k ∈ (getAllJobs s).filter (fun x => isActiveStatus x.status),
          jid ≠ k.id := by
        intro k hk he
        have hkmem : k ∈ s.jobs := by
          have h1 := List.mem_of_mem_filter hk
          unfold getAllJobs at h1
          exact List.take_subset _ _ h1
        have hks : findJob s k.id = some k := findJob_of_mem_nodup s k hn hkmem
        rw [← he, hfind] at hks
        obtain rfl : jb = k := by simpa using hks
        have hact := (List.mem_filter.mp hk).2
        rcases hterm with hc | hc <;> rw [hc] at hact <;> simp [isActiveStatus] at hact
      rw [findJob_foldl_ne o _ s jid hids]
      exact hfind

/-- C7 (witness): a concrete tick-level failure on a draft job writes only
the allowed draft→failed edge, and a concrete completed job survives a whole
tick unchanged. -/
theorem job_status_transitions_follow_edges_w :
    List.Chain' allowedEdge (JobStatus.draft ::
      (processJobCaught wThrowOracle wDraftStore (cxJob "jw" JobStatus.draft)).2) ∧
    findJob cxManyJobsStore "c0" = some (cxJob "c0" JobStatus.completed) := by
  constructor
  · exact (job_status_transitions_follow_edges wThrowOracle wDraftStore
      (cxJob "jw" JobStatus.draft)).2.1 (by decide)
  · exact (job_status_transitions_follow_edges baseOracle cxManyJobsStore
      (cxJob "x" JobStatus.draft)).2.2.2 "c0" (cxJob "c0" JobStatus.completed) 0
      cxManyJobsStore (by decide) (by decide) (Or.inl rfl) (by decide)

theorem foldl_processJobCaught_spec (o : Oracle) (L : List Job) :
    ∀ (s : Store), (L.map Job.id).Nodup →
      (∀ j ∈ L, findJob s j.id = some j) →
      (∀ j ∈ L, isActiveStatus j.status = true) →
      ∀ j ∈ L,
        (o.jobThrows j.id = true →
          findJob (L.foldl (fun st k => (processJobCaught o st k).1) s) j.id =
            some { j with status := JobStatus.failed }) ∧
        (noJobFailure o j.id →
          ∃ j', findJob (L.foldl (fun st k => (processJobCaught o st k).1) s) j.id =
              some j' ∧ j'.status ≠ JobStatus.failed) := by
  induction L with
  | nil => intro s _ _ _ j hj; cases hj
  | cons a t ih =>
    intro s hnd hfind hact j hj
    rw [List.foldl_cons]
    have hnd' : (∀ x ∈ t, ¬ x.id = a.id) ∧ (t.map Job.id).Nodup := by simpa using hnd
    have hta : ∀ k ∈ t, k.id ≠ a.id := fun k hk => hnd'.1 k hk
    rcases List.mem_cons.mp hj with rfl | hjt
    · constructor
      · intro hthrow
        have h1 : findJob (processJobCaught o s j).1 j.id =
            some { j with status := JobStatus.failed } := by
          simp only [processJobCaught, hthrow, if_true]
          rw [findJob_updateJobStatus_self, hfind j (List.mem_cons_self j t)]
          rfl
        rw [findJob_foldl_ne o t _ j.id (fun k hk => (hta k hk).symm)]
        exact h1
      · intro hnof
        obtain ⟨j', hj', hstj⟩ := findJob_processJobCaught_self o s j j
          (hfind j (List.mem_cons_self j t))
        have hnm := failed_not_in_trace o s j hnof
        have hne : j'.status ≠ JobStatus.failed := by
          intro hfa
          rcases getLastD_cases ((processJobCaught o s j).2) j.status with he | hm
          · rw [hstj, he] at hfa
            have hja := hact j (List.mem_cons_self j t)
            rw [hfa] at hja
            simp [isActiveStatus] at hja
          · rw [hstj] at hfa
            exact hnm (hfa ▸ hm)
        refine ⟨j', ?_, hne⟩
        rw [findJob_foldl_ne o t _ j.id (fun k hk => (hta k hk).symm)]
        exact hj'
    · have hfind' : ∀ k ∈ t, findJob (processJobCaught o s a).1 k.id = some k := by
        intro k hk
        rw [findJob_processJobCaught_ne o s a k.id (hta k hk)]
        exact hfind k (List.mem_cons_of_mem a hk)
      exact ih (processJobCaught o s a).1 hnd'.2 hfind'
        (fun k hk => hact k (List.mem_cons_of_mem a hk)) j hjt

/-- C3 (counterexample): with 51 jobs — the 50 most recently created all
`completed` and one older job still `draft` — the tick loads only the newest
50, reports success with 0 jobs attempted, and leaves the non-terminal draft
job completely unprocessed (its status would change to `prospecting` or
beyond if it were processed): the tick does NOT load every non-terminal
job. -/
theorem cronTick_misses_job_beyond_limit_cx :
    jobStatusIn cxManyJobsStore "d51" = some JobStatus.draft ∧
    isActiveStatus JobStatus.draft = true ∧
    cronTick baseOracle cxManyJobsStore = Except.ok (0, cxManyJobsStore) := by
  refine ⟨by decide, by decide, by decide⟩

/-- C3 (amended): each tick loads the 50 most recently created jobs (not
necessarily every job), filters to the non-terminal ones, and processes each
independently: the tick always reports success with the count of jobs
attempted — whatever per-job failures occur — while each job whose
processing throws is marked `failed` (only that job), and each loaded job
with no injected failure ends the tick in a non-`failed` status; a failure
of the job-list fetch itself is the one fatal per-tick condition. -/
theorem cronTick_isolation_and_report (o : Oracle) (s : Store)
    (hf : o.fetchFails = false) (hn : (s.jobs.map Job.id).Nodup) :
    (∃ final,
      cronTick o s =
        Except.ok (((getAllJobs s).filter (fun x => isActiveStatus x.status)).length,
          final) ∧
      ∀ j ∈ (getAllJobs s).filter (fun x => isActiveStatus x.status),
        (o.jobThrows j.id = true →
          findJob final j.id = some { j with status := JobStatus.failed }) ∧
        (noJobFailure o j.id →
          ∃ j', findJob final j.id = some j' ∧ j'.status ≠ JobStatus.failed)) ∧
    (∀ o' : Oracle, o'.fetchFails = true →
      cronTick o' s = Except.error "Cron processing failed") := by
  constructor
  · refine ⟨((getAllJobs s).filter (fun x => isActiveStatus x.status)).foldl
      (fun st k => (processJobCaught o st k).1) s, ?_, ?_⟩
    · unfold cronTick
      rw [if_neg (by rw [hf]; exact Bool.false_ne_true)]
    · have hLsub : ((getAllJobs s).filter (fun x => isActiveStatus x.status)).Sublist
          s.jobs := by
        unfold getAllJobs
        exact (List.filter_sublist _).trans (List.take_sublist _ _)
      have hnd : (((getAllJobs s).filter (fun x => isActiveStatus x.status)).map
          Job.id).Nodup :=
        List.Nodup.sublist (hLsub.map Job.id) hn
      have hfindL : ∀ j ∈ (getAllJobs s).filter (fun x => isActiveStatus x.status),
          findJob s j.id = some j := by
        intro j hj
        exact findJob_of_mem_nodup s j hn (hLsub.subset hj)
      have hactL : ∀ j ∈ (getAllJobs s).filter (fun x => isActiveStatus x.status),
          isActiveStatus j.status = true := by
        intro j hj
        exact (List.mem_filter.mp hj).2
      exact foldl_processJobCaught_spec o _ s hnd hfindL hactL
  · intro o' hf'
    unfold cronTick
    rw [if_pos hf']

/-- C3 (witness): on a one-draft-job store whose processing throws, the tick
reports success with one job attempted and that job alone is marked failed. -/
theorem cronTick_isolation_and_report_w :
    cronTick wThrowOracle wDraftStore = Except.ok (1, (cronTick wThrowOracle
      wDraftStore).toOption.map Prod.snd |>.getD wDraftStore) ∨
    ∃ final, cronTick wThrowOracle wDraftStore = Except.ok (1, final) ∧
      findJob final "jw" = some { cxJob "jw" JobStatus.draft with
        status := JobStatus.failed } := by
  right
  obtain ⟨final, htick, hall⟩ :=
    (cronTick_isolation_and_report wThrowOracle wDraftStore rfl (by decide)).1
  refine ⟨final, ?_, ?_⟩
  · exact htick
  · have hmem : cxJob "jw" JobStatus.draft ∈
        (getAllJobs wDraftStore).filter (fun x => isActiveStatus x.status) := by
      decide
    exact (hall (cxJob "jw" JobStatus.draft) hmem).1 rfl

end LeadMailer
